import Mathlib

/-!
Ping: ICMP echo session engine

A shallow embedding of `src/ping.cpp`, `src/ping.h` (class `Ping`) and the
properties proved about it.

Modelling conventions

* A byte of memory is a `Fin 256`; a memory region reached through a pointer is
  the `List Byte` that starts at the pointer.  `send_packet` and `recv_packet`
  are lists of length 4096.
* The host is little-endian (the target of the Linux `iphdr`/`icmphdr` code):
  a native `unsigned short` load of the bytes `b0, b1` is `b0 + 256 * b1`.
* Unsigned arithmetic and integer conversions wrap, and are written with an
  explicit `%`.  The `int` difference and product of the loss percentage in
  `finish` wrap to 32 bits, as the compiled code does.  Other signed
  `int`/`long` arithmetic whose overflow is undefined behaviour is carried out
  in `Int`/`Nat` without wrapping.
* Text written to `std::cout`/`std::cerr` is a list of tokens, one per `<<`.
* Results of system calls (`gettimeofday`, `sendto`, `recvfrom`, `getpid`, name
  resolution, `socket`) are parameters of the operation that makes the call.
* The process that executes `run` is a state machine over events: a signal
  (SIGALRM when the armed alarm elapses, SIGINT) or the execution of the next
  statement of the loop body.  Signals are delivered between two statements of
  the loop body.
-/

/-- One byte of memory. -/
abbrev Byte := Fin 256

/-- Conversion of an integer value to `unsigned char`. -/
def toByte (n : Nat) : Byte := ⟨n % 256, Nat.mod_lt _ (by decide)⟩

/-- Native (little-endian) `unsigned short` load from two consecutive bytes. -/
def word16 (b0 b1 : Byte) : Nat := b0.val + 256 * b1.val

/-- Native (little-endian) `unsigned short` store of `v` at byte offset `off`. -/
def store16 (mem : List Byte) (off : Nat) (v : Nat) : List Byte :=
  (mem.set off (toByte v)).set (off + 1) (toByte (v / 256))

/-- Conversion of an `int` to `uint16_t`. -/
def toU16 (x : Int) : Nat := (x % 65536).toNat

/-- Conversion of an `int` to `size_t` (64 bit). -/
def toSizeT (x : Int) : Nat := (x % 2 ^ 64).toNat

/-- Conversion of an unsigned or `long` value to `int` (32 bit, two's complement). -/
def toInt32 (x : Int) : Int :=
  if x % 2 ^ 32 < 2 ^ 31 then x % 2 ^ 32 else x % 2 ^ 32 - 2 ^ 32

/-- The functions `htons` and `ntohs` on a little-endian host: swap the two bytes. -/
def htons (x : Nat) : Nat := (x % 256) * 256 + (x / 256) % 256

/-- The function `ntohs`; the same byte swap as `htons`. -/
def ntohs (x : Nat) : Nat := htons x

/-- One item written to an output stream with `<<`. -/
inductive Tok where
  | str (s : String)
  | int (n : Int)
  | endl
  deriving DecidableEq, Repr

/-- The type `timeval`: seconds and microseconds, both `long`. -/
structure Timeval where
  tv_sec : Int
  tv_usec : Int
  deriving DecidableEq, Repr

/-- The struct `Ping::PingStatistics` of `ping.h`, with its default member initialisers. -/
structure PingStatistics where
  transmitted : Int := 0
  received : Int := 0
  min_time : Int := 99999999
  max_time : Int := 0
  total_time : Int := 0
  deriving DecidableEq, Repr

/-- The data members of class `Ping` (`dest_addr` is represented by `dest_ip`). -/
structure Ping where
  hostname : String
  dest_ip : String
  sockfd : Int
  datalen : Int
  packsize : Int
  npackets : Int
  ident : Int
  verbose : Bool
  timing : Bool
  send_packet : List Byte
  recv_packet : List Byte
  stats : PingStatistics
  deriving DecidableEq, Repr

namespace Ping

/-- The size of `icmphdr`. -/
def sizeof_icmphdr : Nat := 8

/-- The size of `timeval`. -/
def sizeof_timeval : Nat := 16

/-- The size of the arrays `send_packet` and `recv_packet`. -/
def sizeof_send_packet : Nat := 4096

/-- The constant `ICMP_ECHO`. -/
def ICMP_ECHO : Nat := 8

/-- The constant `ICMP_ECHOREPLY`. -/
def ICMP_ECHOREPLY : Nat := 0

/-- The constant `ICMP_MINLEN`. -/
def ICMP_MINLEN : Int := 8

/-! ## calculate_checksum -/

/-- The loop `while (nbytes > 1) { sum += *ptr++; nbytes -= 2; }` of
`calculate_checksum`.  Returns `sum`, `ptr` and `nbytes` at loop exit.  The
model stops when the modelled memory is exhausted; it is meaningful for
`nbytes ≤ ptr.length`. -/
def checksum_loop : List Byte → Int → Nat → Nat × List Byte × Int
  | b0 :: b1 :: rest, nbytes, sum =>
    if nbytes > 1 then checksum_loop rest (nbytes - 2) (sum + word16 b0 b1)
    else (sum, b0 :: b1 :: rest, nbytes)
  | ptr, nbytes, sum => (sum, ptr, nbytes)

/-- The statements of `calculate_checksum` after the loop, applied to the loop's
final `sum`, `ptr`, `nbytes`: the odd byte, the two folds, the complement
truncated to `unsigned short`. -/
def checksum_finish (st : Nat × List Byte × Int) : Nat :=
  let sum := st.1
  let sum := if st.2.2 = 1 then sum + word16 (st.2.1.headD 0) 0 else sum
  let sum := (sum >>> 16) + (sum &&& 0xffff)
  let sum := sum + (sum >>> 16)
  (2 ^ 64 - 1 - sum % 2 ^ 64) % 2 ^ 16

/-- The method `Ping::calculate_checksum(ptr, nbytes)`. -/
def calculate_checksum (ptr : List Byte) (nbytes : Int) : Nat :=
  checksum_finish (checksum_loop ptr nbytes 0)

/-! ### The checksum as the specification words it -/

/-- The 16-bit words of a buffer; an odd trailing byte is a word with that byte
as low byte and a zero high byte. -/
def words16 : List Byte → List Nat
  | b0 :: b1 :: rest => word16 b0 b1 :: words16 rest
  | [b] => [b.val]
  | [] => []

/-- Fold the carries above bit 15 back into the low 16 bits until no carry
remains. -/
def fold_carries (s : Nat) : Nat :=
  if s < 65536 then s else fold_carries (s / 65536 + s % 65536)
termination_by s
decreasing_by omega

/-- The 16-bit bitwise complement of a 16-bit value. -/
def not16 (x : Nat) : Nat := 2 ^ 16 - 1 - x

/-- The Internet checksum as the specification states it: the complement of the
one's-complement sum of the 16-bit words. -/
def checksum_spec (buf : List Byte) : Nat :=
  not16 (fold_carries (words16 buf).sum)

/-- Auxiliary: the value of the low 16 bits after the two folding statements. -/
def fold2 (s : Nat) : Nat :=
  ((s / 65536 + s % 65536) + (s / 65536 + s % 65536) / 65536) % 65536

/-! ## Memory access helpers -/

/-- The `n` low-order bytes of `v`, least significant first. -/
def le_bytes : Nat → Nat → List Byte
  | 0, _ => []
  | n + 1, v => toByte v :: le_bytes n (v / 256)

/-- Copy the bytes `bs` into memory starting at offset `off`. -/
def write_bytes : List Byte → Nat → List Byte → List Byte
  | mem, _, [] => mem
  | mem, off, b :: bs => write_bytes (mem.set off b) (off + 1) bs

/-- The unsigned little-endian value of the `n` bytes at offset `off`. -/
def load_le (mem : List Byte) : Nat → Nat → Nat
  | _, 0 => 0
  | off, n + 1 => (mem.getD off 0).val + 256 * load_le mem (off + 1) n

/-- Native store of a `long` (64 bit, two's complement) at offset `off`. -/
def store_long (mem : List Byte) (off : Nat) (v : Int) : List Byte :=
  write_bytes mem off (le_bytes 8 (v % 2 ^ 64).toNat)

/-- Native load of a `long` (64 bit, two's complement) from offset `off`. -/
def load_long (mem : List Byte) (off : Nat) : Int :=
  if load_le mem off 8 < 2 ^ 63 then (load_le mem off 8 : Int)
  else (load_le mem off 8 : Int) - 2 ^ 64

/-- Native store of a `timeval` at offset `off`: `tv_sec`, then `tv_usec`. -/
def store_timeval (mem : List Byte) (off : Nat) (tv : Timeval) : List Byte :=
  store_long (store_long mem off tv.tv_sec) (off + 8) tv.tv_usec

/-- Native load of a `timeval` from offset `off`. -/
def load_timeval (mem : List Byte) (off : Nat) : Timeval :=
  { tv_sec := load_long mem off, tv_usec := load_long mem (off + 8) }

/-! ## Ping::Ping -/

/-- What the constructor's system calls return. -/
structure CtorEnv where
  /-- Result of `inet_pton`: the address when the host string is an IPv4 literal. -/
  inet_pton : Option String
  /-- Result of `gethostbyname`: `h_name` and the address, or nothing on failure. -/
  gethostbyname : Option (String × String)
  /-- Result of `getpid`. -/
  getpid : Int
  /-- Result of `socket`. -/
  socket : Int
  /-- Indeterminate initial content of the array `send_packet`. -/
  send_packet : List Byte
  /-- Indeterminate initial content of the array `recv_packet`. -/
  recv_packet : List Byte

/-- The exceptions thrown by the constructor. -/
inductive CtorError where
  | resolve (host : String)
  | packet_size
  | raw_socket
  deriving DecidableEq, Repr

/-- The message of the thrown `std::runtime_error`. -/
def CtorError.what : CtorError → String
  | .resolve host => "Failed to resolve host: " ++ host
  | .packet_size => "Packet size too large"
  | .raw_socket => "Failed to create raw socket (try running as root)"

/-- What a run of the constructor does: whether `socket` was called, what was
written to `std::cout`, and the constructed object or the thrown message. -/
structure CtorResult where
  socket_called : Bool
  stdout : List Tok
  result : Except CtorError Ping

/-- The statement `packsize = datalen + sizeof(icmphdr)`: the sum is computed in
`size_t` and converted to `int`. -/
def ctor_packsize (datalen : Int) : Int :=
  toInt32 (((toSizeT datalen + sizeof_icmphdr) % 2 ^ 64 : Nat) : Int)

/-- The test `packsize > sizeof(send_packet)`: `packsize` is converted to `size_t`. -/
def packsize_too_large (packsize : Int) : Bool :=
  decide (toSizeT packsize > sizeof_send_packet)

/-- The expression `datalen >= sizeof(timeval)`: `datalen` is converted to `size_t`. -/
def ctor_timing (datalen : Int) : Bool :=
  decide (toSizeT datalen ≥ sizeof_timeval)

/-- The name resolution at the start of the constructor: `hostname` and the
address, from `inet_pton` if the host is an address, else from `gethostbyname`. -/
def ctor_resolved (env : CtorEnv) (host : String) : Option (String × String) :=
  match env.inet_pton with
  | some ip => some (host, ip)
  | none => env.gethostbyname

/-- The constructor `Ping::Ping(host, datalen, npackets, verbose)`. -/
def ctor (env : CtorEnv) (host : String) (datalen npackets : Int) (verbose : Bool) :
    CtorResult :=
  match ctor_resolved env host with
  | none => ⟨false, [], .error (.resolve host)⟩
  | some (hostname, dest_ip) =>
    let packsize := ctor_packsize datalen
    if packsize_too_large packsize then
      ⟨false, [], .error .packet_size⟩
    else
      let timing := ctor_timing datalen
      let ident := env.getpid % 65536
      let sockfd := env.socket
      if sockfd < 0 then
        ⟨true, [], .error .raw_socket⟩
      else
        ⟨true,
          [.str "PING ", .str hostname, .str " (", .str dest_ip, .str "): ",
            .int datalen, .str " data bytes", .endl],
          .ok
            { hostname := hostname, dest_ip := dest_ip, sockfd := sockfd,
              datalen := datalen, packsize := packsize, npackets := npackets,
              ident := ident, verbose := verbose, timing := timing,
              send_packet := env.send_packet, recv_packet := env.recv_packet,
              stats := {} }⟩

/-! ## Ping::send_ping -/

/-- The loop `for (int i = 24; i < packsize; i++) send_packet[i] = i & 0xFF;`
with `count` iterations left, the next one at index `i`. -/
def fill_pattern : Nat → Nat → List Byte → List Byte
  | 0, _, mem => mem
  | count + 1, i, mem => fill_pattern count (i + 1) (mem.set i (toByte (i &&& 0xFF)))

/-- What a call of `send_ping` does: the new object state, the bytes handed to
`sendto`, and what was written to `std::cerr`. -/
structure SendOutcome where
  ping : Ping
  packet : List Byte
  stderr : List Tok

/-- The method `Ping::send_ping`; `now` is what `gettimeofday` returns and
`sendto` what `sendto` returns. -/
def send_ping (p : Ping) (now : Timeval) (sendto : Int) : SendOutcome :=
  let mem := p.send_packet
  let mem := mem.set 0 (toByte ICMP_ECHO)
  let mem := mem.set 1 0
  let mem := store16 mem 2 0
  let mem := store16 mem 4 (htons (toU16 p.ident))
  let mem := store16 mem 6 (htons (toU16 p.stats.transmitted))
  let mem := if p.timing then store_timeval mem sizeof_icmphdr now else mem
  let first := sizeof_icmphdr + sizeof_timeval
  let mem := fill_pattern (p.packsize - first).toNat first mem
  let mem := store16 mem 2 (calculate_checksum mem p.packsize)
  let packet := mem.take p.packsize.toNat
  if sendto ≤ 0 then
    { ping := { p with send_packet := mem }, packet := packet,
      stderr := if p.verbose then [.str "Failed to send ping packet", .endl] else [] }
  else
    { ping := { p with send_packet := mem,
                       stats := { p.stats with transmitted := p.stats.transmitted + 1 } },
      packet := packet, stderr := [] }

/-! ## Ping::print_packet, Ping::time_subtract -/

/-- The method `Ping::time_subtract(out, in)`; returns the new `*out`. -/
def time_subtract (out inp : Timeval) : Timeval :=
  let usec := out.tv_usec - inp.tv_usec
  let out : Timeval :=
    if usec < 0 then { tv_sec := out.tv_sec - 1, tv_usec := usec + 1000000 }
    else { tv_sec := out.tv_sec, tv_usec := usec }
  { tv_sec := out.tv_sec - inp.tv_sec, tv_usec := out.tv_usec }

/-- The lines `time_subtract(&tv_recv, tv_send); int triptime = tv_recv.tv_sec *
1000 + (tv_recv.tv_usec / 1000);` of `print_packet`: `long` arithmetic, C++
division, conversion to `int`. -/
def triptime (tv_recv tv_send : Timeval) : Int :=
  let d := time_subtract tv_recv tv_send
  toInt32 (d.tv_sec * 1000 + Int.tdiv d.tv_usec 1000)

/-- The expression `ip->ihl * 4`: the low nibble of the first byte, in 4-byte units. -/
def ip_header_len (buf : List Byte) : Nat := ((buf.getD 0 0).val &&& 0x0F) * 4

/-- The 16-bit value of the bytes at offsets `off`, `off + 1` read big-endian. -/
def be16 (buf : List Byte) (off : Nat) : Nat :=
  256 * (buf.getD off 0).val + (buf.getD (off + 1) 0).val

/-- What a call of `print_packet` does: the new object state and what was
written to `std::cout` and `std::cerr`. -/
structure PrintOutcome where
  ping : Ping
  stdout : List Tok
  stderr : List Tok

/-- The method `Ping::print_packet(buf, cc, from)`; `src` is the text
`inet_ntoa(from->sin_addr)` and `now` what `gettimeofday` returns. -/
def print_packet (p : Ping) (buf : List Byte) (cc : Int) (src : String) (now : Timeval) :
    PrintOutcome :=
  let iphdrlen := ip_header_len buf
  if cc < (iphdrlen : Int) + ICMP_MINLEN then
    { ping := p, stdout := [],
      stderr := if p.verbose then
          [.str "packet too short (", .int cc, .str " bytes) from ", .str src, .endl]
        else [] }
  else
    let icmp := buf.drop iphdrlen
    let type := (icmp.getD 0 0).val
    if type ≠ ICMP_ECHOREPLY then
      { ping := p, stdout := [],
        stderr := if p.verbose then
            [.int cc, .str " bytes from ", .str src, .str ": icmp_type=", .int type, .endl]
          else [] }
    else if (ntohs (word16 (icmp.getD 4 0) (icmp.getD 5 0)) : Int) ≠ p.ident then
      { ping := p, stdout := [], stderr := [] }
    else
      let out : List Tok :=
        [.int cc, .str " bytes from ", .str src, .str ": icmp_seq=",
          .int (ntohs (word16 (icmp.getD 6 0) (icmp.getD 7 0)))]
      if p.timing then
        let tv_send := load_timeval p.send_packet sizeof_icmphdr
        let t := triptime now tv_send
        let stats := { p.stats with total_time := p.stats.total_time + t }
        let stats := if t < stats.min_time then { stats with min_time := t } else stats
        let stats := if t > stats.max_time then { stats with max_time := t } else stats
        { ping := { p with stats := { stats with received := stats.received + 1 } },
          stdout := out ++ [.str " time=", .int t, .str " ms", .endl], stderr := [] }
      else
        { ping := { p with stats := { p.stats with received := p.stats.received + 1 } },
          stdout := out ++ [.endl], stderr := [] }

/-! ## Ping::finish -/

/-- C++ integer division `a / b`: truncates toward zero; undefined for `b = 0`. -/
def cdiv (a b : Int) : Option Int :=
  if b = 0 then none else some (Int.tdiv a b)

/-- The method `Ping::finish`: what it writes to `std::cout`, or `none` if it
divides by zero.  The difference and the product of `int loss` are 32-bit `int`
operations. -/
def finish (p : Ping) : Option (List Tok) := do
  let out : List Tok :=
    [.str "\n--- ", .str p.hostname, .str " ping statistics ---", .endl,
      .int p.stats.transmitted, .str " packets transmitted, ",
      .int p.stats.received, .str " packets received, "]
  let out ←
    if p.stats.transmitted > 0 then do
      let loss ← cdiv (toInt32 (toInt32 (p.stats.transmitted - p.stats.received) * 100))
        p.stats.transmitted
      pure (out ++ [.int loss, .str "% packet loss", .endl])
    else pure out
  let out ←
    if p.stats.received > 0 ∧ p.timing then do
      let avg ← cdiv p.stats.total_time p.stats.received
      pure (out ++ [.str "round-trip min/avg/max = ", .int p.stats.min_time, .str "/",
        .int (toInt32 avg), .str "/", .int p.stats.max_time, .str " ms", .endl])
    else pure out
  pure out

/-! ## Ping::alarm_handler, Ping::receive_ping -/

/-- What a call of `alarm_handler` does: the new object state, the bytes handed
to `sendto` if `send_ping` was called, what was written to `std::cerr`, whether
the disposition of SIGALRM was replaced by the handler that calls `exit(0)`,
and the argument of `alarm`. -/
structure AlarmOutcome where
  ping : Ping
  sent : Option (List Byte)
  stderr : List Tok
  exit_on_alarm : Bool
  alarm : Int

/-- The method `Ping::alarm_handler`; `now` and `sendto` are what
`gettimeofday` and `sendto` return if `send_ping` is called. -/
def alarm_handler (p : Ping) (now : Timeval) (sendto : Int) : AlarmOutcome :=
  if p.npackets = 0 ∨ p.stats.transmitted < p.npackets then
    let r := send_ping p now sendto
    { ping := r.ping, sent := some r.packet, stderr := r.stderr,
      exit_on_alarm := false, alarm := 1 }
  else
    let waittime : Int :=
      if p.stats.received ≠ 0 then Int.tdiv (2 * p.stats.max_time) 1000 else 10
    let waittime : Int := if waittime = 0 then 1 else waittime
    { ping := p, sent := none, stderr := [], exit_on_alarm := true, alarm := waittime }

/-- What `recvfrom` returns: an error (`cc < 0`, with whether `errno` is
`EAGAIN`/`EWOULDBLOCK` and the text of `strerror`), or a datagram and the text
of its source address. -/
inductive RecvResult where
  | error (again : Bool) (msg : String)
  | datagram (data : List Byte) (src : String)
  deriving DecidableEq, Repr

/-- The method `Ping::receive_ping`; `recv` is what `recvfrom` returns (at most
`sizeof(recv_packet)` bytes of the datagram are stored in `recv_packet`, and
`cc` is their number) and `now` what `gettimeofday` returns. -/
def receive_ping (p : Ping) (recv : RecvResult) (now : Timeval) : PrintOutcome :=
  match recv with
  | .error again msg =>
    { ping := p, stdout := [],
      stderr := if ¬ again ∧ p.verbose then
          [.str "Error receiving packet: ", .str msg, .endl]
        else [] }
  | .datagram data src =>
    let stored := data.take sizeof_send_packet
    let p := { p with recv_packet := write_bytes p.recv_packet 0 stored }
    print_packet p p.recv_packet (stored.length : Int) src now

/-! ## Ping::run -/

/-- Where a running session stands: in the loop of `run`, after `finish` and
`break`, after `exit(0)` called from a signal handler, or after a division by
zero. -/
inductive Status where
  | running
  | finished
  | exited
  | undefined
  deriving DecidableEq, Repr

/-- The next statement of the loop body of `run`. -/
inductive Pc where
  | check_alarm
  | receive
  | check_done
  deriving DecidableEq, Repr

/-- One call `sendto(sockfd, send_packet, packsize, ...)`: the content of
`send_packet`, the length argument, and whether the result was positive. -/
structure SentRequest where
  buffer : List Byte
  packsize : Int
  ok : Bool
  deriving DecidableEq, Repr

/-- The state of the process while `run` executes: the object, the flag
`alarm_flag`, whether SIGALRM is handled by `exit(0)`, the pending `alarm` (its
seconds), the position in the loop, the calls of `sendto` so far, and what has
been written to `std::cout` and `std::cerr`. -/
structure Session where
  ping : Ping
  alarm_flag : Bool
  exit_on_alarm : Bool
  timer : Option Int
  pc : Pc
  status : Status
  sent : List SentRequest
  stdout : List Tok
  stderr : List Tok
  deriving DecidableEq, Repr

/-- What can happen next to the process: the pending alarm elapses (SIGALRM), an
interrupt (SIGINT), or the program executes the next statement of the loop body;
`now`, `sendto` and `recv` are what `gettimeofday`, `sendto` and `recvfrom`
return if that statement calls them. -/
inductive Event where
  | sigalrm
  | sigint
  | advance (now : Timeval) (sendto : Int) (recv : RecvResult)
  deriving DecidableEq, Repr

/-- The start of `run`: the handlers are installed, the first `send_ping()` is
made and `alarm(1)` is armed. -/
def run_start (p : Ping) (now : Timeval) (sendto : Int) : Session :=
  let r := send_ping p now sendto
  { ping := r.ping, alarm_flag := false, exit_on_alarm := false, timer := some 1,
    pc := .check_alarm, status := .running,
    sent := [{ buffer := r.ping.send_packet, packsize := p.packsize, ok := decide (0 < sendto) }],
    stdout := [], stderr := r.stderr }

/-- The statement `if (alarm_flag) { alarm_flag = 0; alarm_handler(); }`. -/
def step_check_alarm (s : Session) (now : Timeval) (sendto : Int) : Session :=
  if s.alarm_flag then
    let r := alarm_handler s.ping now sendto
    { s with
      ping := r.ping, alarm_flag := false,
      exit_on_alarm := s.exit_on_alarm || r.exit_on_alarm,
      timer := some r.alarm,
      sent := match r.sent with
        | some _ =>
          s.sent ++ [{ buffer := r.ping.send_packet, packsize := s.ping.packsize,
                       ok := decide (0 < sendto) }]
        | none => s.sent,
      stderr := s.stderr ++ r.stderr,
      pc := .receive }
  else { s with pc := .receive }

/-- The statement `receive_ping();`. -/
def step_receive (s : Session) (recv : RecvResult) (now : Timeval) : Session :=
  let r := receive_ping s.ping recv now
  { s with ping := r.ping, stdout := s.stdout ++ r.stdout, stderr := s.stderr ++ r.stderr,
           pc := .check_done }

/-- The statement `if (npackets > 0 && stats.received >= npackets) { finish();
break; }`. -/
def step_check_done (s : Session) : Session :=
  if s.ping.npackets > 0 ∧ s.ping.stats.received ≥ s.ping.npackets then
    match finish s.ping with
    | some out => { s with stdout := s.stdout ++ out, status := .finished }
    | none => { s with status := .undefined }
  else { s with pc := .check_alarm }

/-- One event of a session.  SIGALRM sets `alarm_flag`, or ends the process
without any output once `alarm_handler` has replaced its handler by `exit(0)`;
SIGINT ends the process without any output. -/
def step (s : Session) (e : Event) : Session :=
  match s.status with
  | .running =>
    match e with
    | .sigint => { s with status := .exited }
    | .sigalrm =>
      match s.timer with
      | none => s
      | some _ =>
        if s.exit_on_alarm then { s with status := .exited, timer := none }
        else { s with alarm_flag := true, timer := none }
    | .advance now sendto recv =>
      match s.pc with
      | .check_alarm => step_check_alarm s now sendto
      | .receive => step_receive s recv now
      | .check_done => step_check_done s
  | _ => s

/-- The session after a sequence of events. -/
def run_events (s : Session) (events : List Event) : Session :=
  events.foldl step s

/-- The states a session of a freshly constructed object can be in. -/
def Reachable (p0 : Ping) (s : Session) : Prop :=
  ∃ (now : Timeval) (sendto : Int) (events : List Event),
    s = run_events (run_start p0 now sendto) events

/-! ## Auxiliary definitions and example data used by the theorems -/

/-- The content of `send_packet` when `send_ping` reaches the checksum call. -/
def send_ping_filled (p : Ping) (now : Timeval) : List Byte :=
  let mem := p.send_packet
  let mem := mem.set 0 (toByte ICMP_ECHO)
  let mem := mem.set 1 0
  let mem := store16 mem 2 0
  let mem := store16 mem 4 (htons (toU16 p.ident))
  let mem := store16 mem 6 (htons (toU16 p.stats.transmitted))
  let mem := if p.timing then store_timeval mem sizeof_icmphdr now else mem
  fill_pattern (p.packsize - (sizeof_icmphdr + sizeof_timeval)).toNat
    (sizeof_icmphdr + sizeof_timeval) mem

/-- An example session: payload length 3, identifier 0x1234, 513 packets sent so far. -/
def example_session : Ping :=
  { hostname := "localhost", dest_ip := "127.0.0.1", sockfd := 3, datalen := 3,
    packsize := 11, npackets := 0, ident := 0x1234, verbose := false, timing := false,
    send_packet := List.replicate 4096 7, recv_packet := List.replicate 4096 0,
    stats := { transmitted := 513 } }

/-- A received buffer: IP header of 20 bytes, then an Echo Reply with identifier
0x1234 and sequence 9. -/
def example_reply : List Byte :=
  [0x45] ++ List.replicate 19 0 ++ [0, 0, 0, 0, 0x12, 0x34, 0, 9] ++ List.replicate 56 0

/-- An environment in which the host is an IPv4 literal and every call succeeds. -/
def example_env : CtorEnv :=
  { inet_pton := some "127.0.0.1", gethostbyname := none, getpid := 4660, socket := 3,
    send_packet := List.replicate 4096 7, recv_packet := List.replicate 4096 0 }

/-- The object the constructor builds from `example_env` for host "127.0.0.1",
payload length 56 and the given packet-count limit. -/
def example_ping56 (npackets : Int) : Ping :=
  { hostname := "127.0.0.1", dest_ip := "127.0.0.1", sockfd := 3, datalen := 56,
    packsize := 64, npackets := npackets, ident := 4660, verbose := false, timing := true,
    send_packet := List.replicate 4096 7, recv_packet := List.replicate 4096 0,
    stats := {} }

/-- An 84-byte datagram: IP header of 20 bytes, then an Echo Reply with the
given identifier and sequence number, then 56 data bytes. -/
def echo_reply (ident seq : Nat) : List Byte :=
  [0x45] ++ List.replicate 19 0 ++
    [0, 0, 0, 0, toByte (ident / 256), toByte ident, toByte (seq / 256), toByte seq] ++
    List.replicate 56 0

/-- A receive that times out: `recvfrom` fails with `EAGAIN`. -/
def recv_timeout : RecvResult := .error true "Resource temporarily unavailable"

/-- The events of a session with limit 3 in which each of the three sends
succeeds and is answered by one Echo Reply, 20, 30 and 25 ms later. -/
def events_three_replies : List Event :=
  [.advance ⟨100, 0⟩ 64 recv_timeout,
   .advance ⟨100, 20000⟩ 64 (.datagram (echo_reply 4660 0) "127.0.0.1"),
   .advance ⟨100, 20000⟩ 64 recv_timeout,
   .sigalrm,
   .advance ⟨101, 0⟩ 64 recv_timeout,
   .advance ⟨101, 30000⟩ 64 (.datagram (echo_reply 4660 1) "127.0.0.1"),
   .advance ⟨101, 30000⟩ 64 recv_timeout,
   .sigalrm,
   .advance ⟨102, 0⟩ 64 recv_timeout,
   .advance ⟨102, 25000⟩ 64 (.datagram (echo_reply 4660 2) "127.0.0.1"),
   .advance ⟨102, 25000⟩ 64 recv_timeout]

/-- The events of a session with limit 2 in which both sends succeed and no
reply ever arrives: every receive times out, and the alarm elapses three times
(second send, start of the grace period, end of the grace period). -/
def events_no_reply : List Event :=
  [.advance ⟨100, 0⟩ 64 recv_timeout,
   .advance ⟨100, 0⟩ 64 recv_timeout,
   .advance ⟨100, 0⟩ 64 recv_timeout,
   .sigalrm,
   .advance ⟨101, 0⟩ 64 recv_timeout,
   .advance ⟨101, 0⟩ 64 recv_timeout,
   .advance ⟨101, 0⟩ 64 recv_timeout,
   .sigalrm,
   .advance ⟨102, 0⟩ 64 recv_timeout,
   .advance ⟨102, 0⟩ 64 recv_timeout,
   .advance ⟨102, 0⟩ 64 recv_timeout,
   .sigalrm]

/-- The configuration of a session, which no step of the engine changes: every
member but the statistics and the content of the two buffers. -/
def SameConfig (p q : Ping) : Prop :=
  q.timing = p.timing ∧ q.npackets = p.npackets ∧ q.ident = p.ident ∧
    q.packsize = p.packsize ∧ q.send_packet.length = p.send_packet.length

/-- The relation between the timing statistics that the accepted replies
maintain: the counters are not negative, `min_time` and `max_time` are `int`
values, and with timing enabled `total_time` lies between `received` times
`min_time` and `received` times `max_time`. -/
def StatsInv (p : Ping) : Prop :=
  0 ≤ p.stats.received ∧ -2 ^ 31 ≤ p.stats.min_time ∧ p.stats.max_time < 2 ^ 31 ∧
    (p.timing = true →
      p.stats.received * p.stats.min_time ≤ p.stats.total_time ∧
        p.stats.total_time ≤ p.stats.received * p.stats.max_time)

/-- The part of the report of `finish` before the round-trip line: the title,
the two counts and, if any packet was transmitted, the loss percentage. -/
def finish_counts (p : Ping) : List Tok :=
  [.str "\n--- ", .str p.hostname, .str " ping statistics ---", .endl,
    .int p.stats.transmitted, .str " packets transmitted, ",
    .int p.stats.received, .str " packets received, "] ++
  (if p.stats.transmitted > 0 then
    [.int (Int.tdiv (toInt32 (toInt32 (p.stats.transmitted - p.stats.received) * 100))
        p.stats.transmitted),
      .str "% packet loss", .endl]
  else [])

/-- The session with limit 3 and three answered sends, at its end. -/
def session_three_replies : Session :=
  run_events (run_start (example_ping56 3) ⟨100, 0⟩ 64) events_three_replies

/-- The session with limit 2 and no reply, once the grace period is armed (all
events but the last SIGALRM). -/
def session_no_reply_draining : Session :=
  run_events (run_start (example_ping56 2) ⟨100, 0⟩ 64) (events_no_reply.take 11)

/-- The session with limit 2 and no reply, after the grace period has elapsed. -/
def session_no_reply_end : Session :=
  run_events (run_start (example_ping56 2) ⟨100, 0⟩ 64) events_no_reply

/-- The object the constructor builds from `example_env` for host "127.0.0.1",
payload length 3 and no packet-count limit; timing is disabled. -/
def example_ping3 : Ping :=
  { hostname := "127.0.0.1", dest_ip := "127.0.0.1", sockfd := 3, datalen := 3,
    packsize := 11, npackets := 0, ident := 4660, verbose := false, timing := false,
    send_packet := List.replicate 4096 7, recv_packet := List.replicate 4096 0,
    stats := {} }

/-- A session whose first send fails and which then receives an Echo Reply
carrying its identifier. -/
def session_reply_after_failed_send : Session :=
  run_events (run_start (example_ping56 0) ⟨100, 0⟩ (-1))
    [.advance ⟨100, 0⟩ 64 recv_timeout,
     .advance ⟨100, 20000⟩ 64 (.datagram (echo_reply 4660 0) "127.0.0.1")]

/-- A session with timing disabled after one successful send and one accepted
reply. -/
def session_untimed_reply : Session :=
  run_events (run_start example_ping3 ⟨100, 0⟩ 11)
    [.advance ⟨100, 0⟩ 11 recv_timeout,
     .advance ⟨100, 20000⟩ 11 (.datagram (echo_reply 4660 0) "127.0.0.1")]

/-- The object the constructor builds from `example_env` for host "127.0.0.1"
and payload length -1 (the command line `ping 127.0.0.1 -1`). -/
def example_ping_neg : Ping :=
  { hostname := "127.0.0.1", dest_ip := "127.0.0.1", sockfd := 3, datalen := -1,
    packsize := 7, npackets := 0, ident := 4660, verbose := false, timing := true,
    send_packet := List.replicate 4096 7, recv_packet := List.replicate 4096 0,
    stats := {} }

/-- The sequence fields (bytes 6-7, big-endian) of the requests whose `sendto`
succeeded, in the order of the sends. -/
def sent_sequences (s : Session) : List Nat :=
  (s.sent.filter (fun r => r.ok)).map (fun r => be16 r.buffer 6)

/-! # Theorems -/

theorem checksum_finish_eq (sum : Nat) (ptr : List Byte) (nbytes : Int) :
    checksum_finish (sum, ptr, nbytes) =
      65535 - fold2 (if nbytes = 1 then sum + word16 (ptr.headD 0) 0 else sum) := by
  simp only [checksum_finish, fold2, Nat.shiftRight_eq_div_pow,
    show (0xffff : Nat) = 2 ^ 16 - 1 from rfl, Nat.and_pow_two_sub_one_eq_mod]
  generalize (if nbytes = 1 then sum + word16 (ptr.headD 0) 0 else sum) = s
  norm_num
  omega

theorem checksum_loop_take : ∀ (buf : List Byte) (n : Nat) (acc : Nat), n ≤ buf.length →
    checksum_finish (checksum_loop buf n acc) = 65535 - fold2 (acc + (words16 (buf.take n)).sum)
  | [], n, acc, h => by
    have hn : n = 0 := by simpa using h
    subst hn
    simp [checksum_loop, checksum_finish_eq, words16]
  | [b], 0, acc, _ => by simp [checksum_loop, checksum_finish_eq, words16]
  | [b], 1, acc, _ => by simp [checksum_loop, checksum_finish_eq, words16, word16]
  | [b], n + 2, acc, h => by simp at h
  | b0 :: b1 :: rest, 0, acc, _ => by simp [checksum_loop, checksum_finish_eq, words16]
  | b0 :: b1 :: rest, 1, acc, _ => by simp [checksum_loop, checksum_finish_eq, words16, word16]
  | b0 :: b1 :: rest, n + 2, acc, h => by
    have hn : n ≤ rest.length := by simpa using h
    have ih := checksum_loop_take rest n (acc + word16 b0 b1) hn
    have hgt : ((n + 2 : Nat) : Int) > 1 := by omega
    have hsub : ((n + 2 : Nat) : Int) - 2 = (n : Int) := by omega
    rw [checksum_loop, if_pos hgt, hsub, ih]
    simp [words16, Nat.add_assoc]

theorem calculate_checksum_eq (buf : List Byte) (n : Nat) (h : n ≤ buf.length) :
    calculate_checksum buf n = 65535 - fold2 (words16 (buf.take n)).sum := by
  rw [calculate_checksum, checksum_loop_take buf n 0 h, Nat.zero_add]

theorem calculate_checksum_length (buf : List Byte) :
    calculate_checksum buf buf.length = 65535 - fold2 (words16 buf).sum := by
  rw [calculate_checksum_eq buf buf.length (Nat.le_refl _), List.take_length]

theorem fold2_char (s : Nat) (h : s < 2 ^ 32) :
    s = 65535 * (s / 65536 + (s / 65536 + s % 65536) / 65536) + fold2 s ∧
      (0 < s → 0 < fold2 s) ∧ fold2 s ≤ 65535 := by
  have hc : (s / 65536 + s % 65536) / 65536 = 0 ∨ (s / 65536 + s % 65536) / 65536 = 1 := by
    omega
  unfold fold2
  rcases hc with hc | hc
  · rw [hc]
    have : s / 65536 + s % 65536 < 65536 := by omega
    omega
  · rw [hc]
    have : 65536 ≤ s / 65536 + s % 65536 := by omega
    omega

/-- Writing the complement of the folded sum into a zero word makes the folded
sum of the whole `0xFFFF`. -/
theorem fold2_store (w r : Nat) (h : w + r + 65535 < 2 ^ 32) :
    fold2 (w + (65535 - fold2 (w + r)) + r) = 65535 := by
  obtain ⟨h1, h2, h3⟩ := fold2_char (w + r) (by omega)
  obtain ⟨g1, g2, g3⟩ := fold2_char (w + (65535 - fold2 (w + r)) + r) (by omega)
  generalize fold2 (w + (65535 - fold2 (w + r)) + r) = y at g1 g2 g3 ⊢
  generalize fold2 (w + r) = x at h1 h2 h3 g1 g2
  generalize (w + r) / 65536 + ((w + r) / 65536 + (w + r) % 65536) / 65536 = k at h1
  generalize (w + (65535 - x) + r) / 65536 +
    ((w + (65535 - x) + r) / 65536 + (w + (65535 - x) + r) % 65536) / 65536 = m at g1
  have hpos : 0 < y := g2 (by omega)
  omega

theorem words16_sum_le : ∀ (buf : List Byte), (words16 buf).sum ≤ 65535 * ((buf.length + 1) / 2)
  | [] => by simp [words16]
  | [b] => by simp [words16]; omega
  | b0 :: b1 :: rest => by
    have ih := words16_sum_le rest
    simp only [words16, List.sum_cons, List.length_cons, word16]
    omega

theorem word16_toByte (c : Nat) (h : c < 65536) : word16 (toByte c) (toByte (c / 256)) = c := by
  simp only [word16, toByte]
  omega

theorem store16_length (mem : List Byte) (off v : Nat) : (store16 mem off v).length = mem.length := by
  simp [store16]

theorem calculate_checksum_of_length (buf : List Byte) (n : Nat) (h : buf.length = n) :
    calculate_checksum buf n = 65535 - fold2 (words16 buf).sum := by
  subst h
  exact calculate_checksum_length buf

/-- General form of the round trip, for any buffer of at least four bytes. -/
theorem checksum_store_zero (buf : List Byte) (h4 : 4 ≤ buf.length) (hN : buf.length ≤ 4096)
    (h2 : buf.getD 2 0 = 0) (h3 : buf.getD 3 0 = 0) :
    calculate_checksum (store16 buf 2 (calculate_checksum buf buf.length)) buf.length = 0 := by
  match buf, h4, hN, h2, h3 with
  | b0 :: b1 :: b2 :: b3 :: rest, _, hN, h2, h3 =>
    simp only [List.getD_cons_succ, List.getD_cons_zero] at h2 h3
    subst h2 h3
    rw [calculate_checksum_length,
      calculate_checksum_of_length _ _ (store16_length _ 2 _)]
    have hR := words16_sum_le rest
    simp only [List.length_cons] at hN
    have hw : word16 b0 b1 ≤ 65535 := by simp only [word16]; omega
    have hz : word16 (0 : Byte) 0 = 0 := by simp [word16]
    simp only [store16, List.set_cons_succ, List.set_cons_zero, words16, List.sum_cons, hz,
      Nat.zero_add]
    rw [word16_toByte _ (by omega), ← Nat.add_assoc]
    rw [fold2_store _ _ (by omega)]

/-- C1: for every byte buffer of length N, 4 ≤ N ≤ 4096 (N may be odd), whose
checksum field (bytes 2-3) is zero, storing `calculate_checksum(buffer, N)` into
bytes 2-3 as a native 16-bit word and recomputing over the whole buffer gives 0. -/
theorem C1_checksum_of_stored_checksum_is_zero (buf : List Byte)
    (h4 : 4 ≤ buf.length) (hN : buf.length ≤ 4096)
    (h2 : buf.getD 2 0 = 0) (h3 : buf.getD 3 0 = 0) :
    calculate_checksum (store16 buf 2 (calculate_checksum buf buf.length)) buf.length = 0 :=
  checksum_store_zero buf h4 hN h2 h3

/-- C1 at a buffer of odd length 5: the checksum is 0xFFF6 and validates to 0. -/
theorem C1_witness :
    (4 ≤ ([8, 0, 0, 0, 1] : List Byte).length ∧ ([8, 0, 0, 0, 1] : List Byte).length ≤ 4096) ∧
    calculate_checksum [8, 0, 0, 0, 1] 5 = 65526 ∧
    calculate_checksum (store16 [8, 0, 0, 0, 1] 2
      (calculate_checksum [8, 0, 0, 0, 1] ([8, 0, 0, 0, 1] : List Byte).length))
      ([8, 0, 0, 0, 1] : List Byte).length = 0 :=
  ⟨by decide, by decide,
    C1_checksum_of_stored_checksum_is_zero [8, 0, 0, 0, 1] (by decide) (by decide)
      (by decide) (by decide)⟩

theorem getD_set_ne (l : List Byte) (i j : Nat) (a d : Byte) (h : i ≠ j) :
    (l.set i a).getD j d = l.getD j d := by
  simp [List.getD_eq_getElem?_getD, List.getElem?_set, h]

theorem getD_set_eq (l : List Byte) (i : Nat) (a d : Byte) (h : i < l.length) :
    (l.set i a).getD i d = a := by
  simp [List.getD_eq_getElem?_getD, List.getElem?_set, h]

theorem getD_take (l : List Byte) (n j : Nat) (d : Byte) (h : j < n) :
    (l.take n).getD j d = l.getD j d := by
  simp [List.getD_eq_getElem?_getD, List.getElem?_take, h]

theorem getD_drop (l : List Byte) (n j : Nat) (d : Byte) :
    (l.drop n).getD j d = l.getD (n + j) d := by
  simp [List.getD_eq_getElem?_getD, List.getElem?_drop]

theorem write_bytes_length : ∀ (bs : List Byte) (mem : List Byte) (off : Nat),
    (write_bytes mem off bs).length = mem.length
  | [], mem, off => rfl
  | b :: bs, mem, off => by
    rw [write_bytes, write_bytes_length bs, List.length_set]

theorem getD_write_bytes_lt : ∀ (bs : List Byte) (mem : List Byte) (off j : Nat) (d : Byte),
    j < off → (write_bytes mem off bs).getD j d = mem.getD j d
  | [], mem, off, j, d, _ => rfl
  | b :: bs, mem, off, j, d, h => by
    rw [write_bytes, getD_write_bytes_lt bs _ (off + 1) j d (by omega),
      getD_set_ne _ _ _ _ _ (by omega)]

theorem fill_pattern_length : ∀ (count i : Nat) (mem : List Byte),
    (fill_pattern count i mem).length = mem.length
  | 0, _, _ => rfl
  | count + 1, i, mem => by
    rw [fill_pattern, fill_pattern_length count, List.length_set]

theorem getD_fill_pattern_lt : ∀ (count i : Nat) (mem : List Byte) (j : Nat) (d : Byte),
    j < i → (fill_pattern count i mem).getD j d = mem.getD j d
  | 0, _, _, _, _, _ => rfl
  | count + 1, i, mem, j, d, h => by
    rw [fill_pattern, getD_fill_pattern_lt count (i + 1) _ j d (by omega),
      getD_set_ne _ _ _ _ _ (by omega)]

theorem store_timeval_length (mem : List Byte) (off : Nat) (tv : Timeval) :
    (store_timeval mem off tv).length = mem.length := by
  simp [store_timeval, store_long, write_bytes_length]

theorem getD_store_timeval_lt (mem : List Byte) (off j : Nat) (tv : Timeval) (d : Byte)
    (h : j < off) : (store_timeval mem off tv).getD j d = mem.getD j d := by
  simp only [store_timeval, store_long]
  rw [getD_write_bytes_lt _ _ _ _ _ (by omega), getD_write_bytes_lt _ _ _ _ _ h]

theorem getD_store16_lt (mem : List Byte) (off v j : Nat) (d : Byte) (h : j < off) :
    (store16 mem off v).getD j d = mem.getD j d := by
  simp only [store16]
  rw [getD_set_ne _ _ _ _ _ (by omega), getD_set_ne _ _ _ _ _ (by omega)]

theorem store16_take (mem : List Byte) (off v n : Nat) :
    (store16 mem off v).take n = store16 (mem.take n) off v := by
  simp only [store16, List.set_take]

theorem send_ping_packet (p : Ping) (now : Timeval) (sendto : Int) :
    (send_ping p now sendto).packet =
      (store16 (send_ping_filled p now) 2
        (calculate_checksum (send_ping_filled p now) p.packsize)).take p.packsize.toNat := by
  unfold send_ping send_ping_filled
  by_cases h : sendto ≤ 0 <;> simp [h]

theorem send_ping_filled_length (p : Ping) (now : Timeval) :
    (send_ping_filled p now).length = p.send_packet.length := by
  unfold send_ping_filled
  by_cases h : p.timing <;>
    simp [h, fill_pattern_length, store_timeval_length, store16_length]

theorem send_ping_filled_header (p : Ping) (now : Timeval) (h : 4 ≤ p.send_packet.length) :
    (send_ping_filled p now).getD 0 0 = 8 ∧ (send_ping_filled p now).getD 1 0 = 0 ∧
      (send_ping_filled p now).getD 2 0 = 0 ∧ (send_ping_filled p now).getD 3 0 = 0 := by
  have key : ∀ j, j < 4 → (send_ping_filled p now).getD j 0 =
      (store16 ((p.send_packet.set 0 (toByte ICMP_ECHO)).set 1 0) 2 0).getD j 0 := by
    intro j hj
    unfold send_ping_filled
    simp only [sizeof_icmphdr, sizeof_timeval]
    rw [getD_fill_pattern_lt _ _ _ _ _ (by omega)]
    by_cases ht : p.timing
    · rw [if_pos ht, getD_store_timeval_lt _ _ _ _ _ (by omega),
        getD_store16_lt _ _ _ _ _ (by omega), getD_store16_lt _ _ _ _ _ (by omega)]
    · rw [if_neg ht, getD_store16_lt _ _ _ _ _ (by omega), getD_store16_lt _ _ _ _ _ (by omega)]
  refine ⟨?_, ?_, ?_, ?_⟩
  · rw [key 0 (by omega), getD_store16_lt _ _ _ _ _ (by omega), getD_set_ne _ _ _ _ _ (by omega),
      getD_set_eq _ _ _ _ (by omega)]
    rfl
  · rw [key 1 (by omega), getD_store16_lt _ _ _ _ _ (by omega),
      getD_set_eq _ _ _ _ (by simp; omega)]
  · rw [key 2 (by omega)]
    simp only [store16]
    rw [getD_set_ne _ _ _ _ _ (by omega), getD_set_eq _ _ _ _ (by simp; omega)]
    rfl
  · rw [key 3 (by omega)]
    simp only [store16]
    rw [getD_set_eq _ _ _ _ (by simp; omega)]
    rfl

theorem ctor_packsize_eq (datalen : Int) (h0 : -8 ≤ datalen) (h1 : datalen < 2 ^ 31 - 8) :
    ctor_packsize datalen = datalen + 8 := by
  unfold ctor_packsize toInt32 toSizeT sizeof_icmphdr
  by_cases hneg : datalen < 0
  · have e : (datalen % 2 ^ 64).toNat = (datalen + 2 ^ 64).toNat := by
      congr 1
      omega
    rw [e]
    omega
  · have e : (datalen % 2 ^ 64).toNat = datalen.toNat := by
      congr 1
      omega
    rw [e]
    omega

/-- The packet that `send_ping` hands to `sendto`, for a packet size between 4 and
the buffer size. -/
theorem send_ping_packet_valid (p : Ping) (now : Timeval) (sendto : Int) (n : Nat)
    (hn : p.packsize = (n : Int)) (h4 : 4 ≤ n) (hcap : n ≤ 4096)
    (hlen : p.send_packet.length = 4096) :
    (send_ping p now sendto).packet.length = n ∧
      (send_ping p now sendto).packet.getD 0 0 = 8 ∧
      (send_ping p now sendto).packet.getD 1 0 = 0 ∧
      calculate_checksum (send_ping p now sendto).packet n = 0 := by
  have hfl := send_ping_filled_length p now
  obtain ⟨g0, g1, g2, g3⟩ := send_ping_filled_header p now (by omega)
  rw [send_ping_packet, hn, Int.toNat_ofNat, store16_take]
  have htl : ((send_ping_filled p now).take n).length = n := by
    rw [List.length_take, hfl, hlen]
    omega
  refine ⟨?_, ?_, ?_, ?_⟩
  · rw [store16_length, htl]
  · rw [getD_store16_lt _ _ _ _ _ (by omega), getD_take _ _ _ _ (by omega), g0]
  · rw [getD_store16_lt _ _ _ _ _ (by omega), getD_take _ _ _ _ (by omega), g1]
  · have hc : calculate_checksum (send_ping_filled p now) n =
        calculate_checksum ((send_ping_filled p now).take n)
          ((send_ping_filled p now).take n).length := by
      rw [calculate_checksum_eq _ n (by omega), calculate_checksum_length]
    have := checksum_store_zero ((send_ping_filled p now).take n) (by omega) (by omega)
      (by rw [getD_take _ _ _ _ (by omega), g2]) (by rw [getD_take _ _ _ _ (by omega), g3])
    rw [htl] at this hc
    rw [hc]
    exact this

/-- C2: for every payload length L with 0 ≤ L ≤ 4088, every identifier and every
transmitted count (and every buffer content, clock value and `sendto` result),
the packet built by `send_ping` has exactly L + 8 bytes, its byte 0 (type) is 8,
its byte 1 (code) is 0, and `calculate_checksum` over those L + 8 bytes, the
stored checksum in place, gives 0. -/
theorem C2_send_ping_packet_well_formed (p : Ping) (L : Int) (now : Timeval) (sendto : Int)
    (hL0 : 0 ≤ L) (hL : L ≤ 4088) (hdata : p.datalen = L)
    (hpack : p.packsize = ctor_packsize p.datalen) (hlen : p.send_packet.length = 4096) :
    ((send_ping p now sendto).packet.length : Int) = L + 8 ∧
      (send_ping p now sendto).packet.getD 0 0 = 8 ∧
      (send_ping p now sendto).packet.getD 1 0 = 0 ∧
      calculate_checksum (send_ping p now sendto).packet (L + 8) = 0 := by
  have hp : p.packsize = ((L + 8).toNat : Int) := by
    rw [hpack, hdata, ctor_packsize_eq L (by omega) (by omega)]
    omega
  obtain ⟨a, b, c, d⟩ := send_ping_packet_valid p now sendto (L + 8).toNat hp (by omega)
    (by omega) hlen
  have e : (((L + 8).toNat : Nat) : Int) = L + 8 := by omega
  rw [e] at d
  exact ⟨by rw [a]; exact e, b, c, d⟩

/-- C2 at payload length 3, identifier 0x1234, 513 packets transmitted. -/
theorem C2_witness :
    ((0 : Int) ≤ 3 ∧ (3 : Int) ≤ 4088 ∧ example_session.datalen = 3 ∧
      example_session.packsize = ctor_packsize example_session.datalen ∧
      example_session.send_packet.length = 4096) ∧
    (send_ping example_session ⟨5, 6⟩ 11).packet = [8, 0, 213, 195, 18, 52, 2, 1, 7, 7, 7] ∧
    (((send_ping example_session ⟨5, 6⟩ 11).packet.length : Int) = 3 + 8 ∧
      (send_ping example_session ⟨5, 6⟩ 11).packet.getD 0 0 = 8 ∧
      (send_ping example_session ⟨5, 6⟩ 11).packet.getD 1 0 = 0 ∧
      calculate_checksum (send_ping example_session ⟨5, 6⟩ 11).packet (3 + 8) = 0) :=
  ⟨⟨by decide, by decide, rfl, by decide, List.length_replicate _ _⟩, by decide,
    C2_send_ping_packet_well_formed example_session 3 ⟨5, 6⟩ 11 (by decide) (by decide) rfl
      (by decide) (List.length_replicate _ _)⟩

theorem fold_carries_lt (s : Nat) (h : s < 65536) : fold_carries s = s := by
  rw [fold_carries, if_pos h]

theorem fold_carries_ge (s : Nat) (h : 65536 ≤ s) :
    fold_carries s = fold_carries (s / 65536 + s % 65536) := by
  rw [fold_carries, if_neg (by omega)]

/-- Two folds reach the fixed point of the carry fold below `2^32 + 65535`. -/
theorem fold2_eq_fold_carries (s : Nat) (h : s < 2 ^ 32 + 65535) : fold2 s = fold_carries s := by
  by_cases h1 : s < 65536
  · rw [fold_carries_lt s h1]
    unfold fold2
    omega
  · rw [fold_carries_ge s (by omega)]
    by_cases h2 : s / 65536 + s % 65536 < 65536
    · rw [fold_carries_lt _ h2]
      have h3 : (s / 65536 + s % 65536) / 65536 = 0 := by omega
      unfold fold2
      rw [h3]
      omega
    · rw [fold_carries_ge _ (by omega)]
      have h3 : (s / 65536 + s % 65536) / 65536 = 1 := by omega
      have h4 : (s / 65536 + s % 65536) / 65536 + (s / 65536 + s % 65536) % 65536 < 65536 := by
        omega
      rw [fold_carries_lt _ h4]
      unfold fold2
      rw [h3]
      omega

theorem words16_replicate (k : Nat) (tl : List Byte) :
    (words16 (List.replicate (2 * k) (255 : Byte) ++ tl)).sum = k * 65535 + (words16 tl).sum := by
  induction k with
  | zero => simp
  | succ k ih =>
    have h : 2 * (k + 1) = (2 * k + 1) + 1 := by ring
    rw [h, List.replicate_succ, List.replicate_succ]
    have hw : word16 (255 : Byte) 255 = 65535 := rfl
    rw [List.cons_append, List.cons_append, words16, List.sum_cons, ih, hw]
    omega

/-- C3 (as stated) fails: 65538 words 0xFFFF followed by the odd byte 1. -/
theorem C3_counterexample :
    calculate_checksum (List.replicate (2 * 65538) (255 : Byte) ++ [1])
        (List.replicate (2 * 65538) (255 : Byte) ++ [1]).length = 65535 ∧
      checksum_spec (List.replicate (2 * 65538) (255 : Byte) ++ [1]) = 65534 ∧
      (List.replicate (2 * 65538) (255 : Byte) ++ [1]).length = 131077 := by
  refine ⟨?_, ?_, ?_⟩
  · rw [calculate_checksum_length, words16_replicate]
    have h1 : 65538 * 65535 + (words16 [(1 : Byte)]).sum = 4295032831 := by
      simp only [words16, List.sum_cons, List.sum_nil]
      rfl
    rw [h1]
    rfl
  · rw [checksum_spec, words16_replicate]
    have h1 : 65538 * 65535 + (words16 [(1 : Byte)]).sum = 4295032831 := by
      simp only [words16, List.sum_cons, List.sum_nil]
      rfl
    rw [h1, fold_carries_ge _ (by norm_num)]
    norm_num
    rw [fold_carries_ge _ (by norm_num)]
    norm_num
    rw [fold_carries_ge _ (by norm_num)]
    norm_num
    rw [fold_carries_lt _ (by norm_num)]
    rfl
  · rw [List.length_append, List.length_replicate]
    rfl

/-- C3 (amended): for every byte buffer of length N with 0 ≤ N ≤ 131076 (odd N
included), `calculate_checksum` returns the 16-bit complement of the
one's-complement sum of the buffer's 16-bit words, an odd trailing byte being the
low byte of a last word, carries folded until none remains; the empty buffer
gives `0xFFFF`. -/
theorem C3_checksum_is_ones_complement_sum (buf : List Byte) (hN : buf.length ≤ 131076) :
    calculate_checksum buf buf.length = checksum_spec buf ∧
      calculate_checksum [] 0 = 65535 := by
  constructor
  · have hs := words16_sum_le buf
    have hlt : (words16 buf).sum < 2 ^ 32 + 65535 := by
      have : (buf.length + 1) / 2 ≤ 65538 := by omega
      have := Nat.mul_le_mul_left 65535 this
      omega
    rw [calculate_checksum_length, checksum_spec, fold2_eq_fold_carries _ hlt, not16]
    rfl
  · decide

/-- C3 (amended) at the three-byte buffer 1, 2, 3. -/
theorem C3_witness :
    ([1, 2, 3] : List Byte).length ≤ 131076 ∧
      (calculate_checksum [1, 2, 3] ([1, 2, 3] : List Byte).length = checksum_spec [1, 2, 3] ∧
        calculate_checksum [] 0 = 65535) :=
  ⟨by decide, C3_checksum_is_ones_complement_sum [1, 2, 3] (by decide)⟩

theorem ntohs_word16 (a b : Byte) : ntohs (word16 a b) = 256 * a.val + b.val := by
  unfold ntohs htons word16
  omega

/-- C4: for every received buffer whose first byte declares
`ip_header_len = (first_byte & 0x0F) * 4` in {20, 24, ..., 60} and every received
length `cc < ip_header_len + 8`, `print_packet` rejects the packet as too short:
the object, and so every statistics field, is unchanged and nothing is written
to `std::cout`, whatever the other bytes are; the only output is the verbose
"packet too short" diagnostic on `std::cerr`. -/
theorem C4_print_packet_too_short (p : Ping) (buf : List Byte) (cc : Int) (src : String)
    (now : Timeval)
    (_hhl : ip_header_len buf ∈ [20, 24, 28, 32, 36, 40, 44, 48, 52, 56, 60])
    (hcc : cc < (ip_header_len buf : Int) + 8) :
    ip_header_len buf = ((buf.getD 0 0).val &&& 0x0F) * 4 ∧
      (print_packet p buf cc src now).ping = p ∧
      (print_packet p buf cc src now).ping.stats = p.stats ∧
      (print_packet p buf cc src now).stdout = [] ∧
      (print_packet p buf cc src now).stderr =
        (if p.verbose then
          [.str "packet too short (", .int cc, .str " bytes) from ", .str src, .endl]
        else []) := by
  have h : cc < (ip_header_len buf : Int) + ICMP_MINLEN := hcc
  refine ⟨rfl, ?_, ?_, ?_, ?_⟩ <;> simp only [print_packet, if_pos h]

/-- C4 at a 27-byte datagram with a 20-byte IP header. -/
theorem C4_witness :
    (ip_header_len example_reply ∈ [20, 24, 28, 32, 36, 40, 44, 48, 52, 56, 60] ∧
      (27 : Int) < (ip_header_len example_reply : Int) + 8) ∧
    (ip_header_len example_reply = ((example_reply.getD 0 0).val &&& 0x0F) * 4 ∧
      (print_packet example_session example_reply 27 "127.0.0.1" ⟨5, 6⟩).ping
        = example_session ∧
      (print_packet example_session example_reply 27 "127.0.0.1" ⟨5, 6⟩).ping.stats
        = example_session.stats ∧
      (print_packet example_session example_reply 27 "127.0.0.1" ⟨5, 6⟩).stdout = [] ∧
      (print_packet example_session example_reply 27 "127.0.0.1" ⟨5, 6⟩).stderr =
        (if example_session.verbose then
          [.str "packet too short (", .int 27, .str " bytes) from ", .str "127.0.0.1", .endl]
        else [])) :=
  ⟨⟨by decide, by decide⟩,
    C4_print_packet_too_short example_session example_reply 27 "127.0.0.1" ⟨5, 6⟩
      (by decide) (by decide)⟩

/-- C5: for every received buffer and length, if the ICMP identifier field
(bytes `ip_header_len+4`, `ip_header_len+5`, read big-endian) differs from the
session identifier, `print_packet` leaves the object, and so every statistics
field, unchanged and writes nothing to `std::cout`, whatever the ICMP type byte
and the verbose flag are. -/
theorem C5_print_packet_foreign_identifier (p : Ping) (buf : List Byte) (cc : Int)
    (src : String) (now : Timeval)
    (hid : (be16 buf (ip_header_len buf + 4) : Int) ≠ p.ident) :
    (print_packet p buf cc src now).ping = p ∧
      (print_packet p buf cc src now).ping.stats = p.stats ∧
      (print_packet p buf cc src now).stdout = [] := by
  have hid2 : (ntohs (word16 ((buf.drop (ip_header_len buf)).getD 4 0)
      ((buf.drop (ip_header_len buf)).getD 5 0)) : Int) ≠ p.ident := by
    rw [ntohs_word16, getD_drop, getD_drop]
    exact hid
  unfold print_packet
  by_cases h1 : cc < (ip_header_len buf : Int) + ICMP_MINLEN
  · refine ⟨?_, ?_, ?_⟩ <;> simp only [if_pos h1]
  · by_cases h2 : ((buf.drop (ip_header_len buf)).getD 0 0).val ≠ ICMP_ECHOREPLY
    · refine ⟨?_, ?_, ?_⟩ <;> simp only [if_neg h1, if_pos h2]
    · refine ⟨?_, ?_, ?_⟩ <;> simp only [if_neg h1, if_neg h2, if_pos hid2]

/-- C5 at a reply carrying identifier 0x1234 for a session with identifier 0x1235. -/
theorem C5_witness :
    ((be16 example_reply (ip_header_len example_reply + 4) : Int)
      ≠ { example_session with ident := 0x1235 }.ident) ∧
    ((print_packet { example_session with ident := 0x1235 } example_reply 84 "127.0.0.1"
        ⟨5, 6⟩).ping = { example_session with ident := 0x1235 } ∧
      (print_packet { example_session with ident := 0x1235 } example_reply 84 "127.0.0.1"
        ⟨5, 6⟩).ping.stats = { example_session with ident := 0x1235 }.stats ∧
      (print_packet { example_session with ident := 0x1235 } example_reply 84 "127.0.0.1"
        ⟨5, 6⟩).stdout = []) :=
  ⟨by decide,
    C5_print_packet_foreign_identifier { example_session with ident := 0x1235 } example_reply 84
      "127.0.0.1" ⟨5, 6⟩ (by decide)⟩

theorem toInt32_of_range (x : Int) (h0 : 0 ≤ x) (h1 : x < 2 ^ 31) : toInt32 x = x := by
  unfold toInt32
  have e : x % 2 ^ 32 = x := Int.emod_eq_of_lt h0 (by omega)
  rw [e, if_pos h1]

/-- C6: for every received buffer with `cc ≥ ip_header_len + 8`, ICMP type byte 0
(Echo Reply) and identifier equal to the session identifier, `print_packet`
accepts it: `received` increases by exactly 1, `transmitted` is unchanged, the
printed sequence is the big-endian 16-bit value at bytes `ip_header_len+6`,
`ip_header_len+7`; with timing enabled `total_time` increases by the computed
triptime, `min_time` becomes the minimum and `max_time` the maximum of the old
value and the triptime; with timing disabled the three are unchanged. -/
theorem C6_print_packet_accepts_reply (p : Ping) (buf : List Byte) (cc : Int) (src : String)
    (now : Timeval)
    (hcc : (ip_header_len buf : Int) + 8 ≤ cc)
    (htype : (buf.getD (ip_header_len buf) 0).val = 0)
    (hid : (be16 buf (ip_header_len buf + 4) : Int) = p.ident) :
    (print_packet p buf cc src now).ping.stats.received = p.stats.received + 1 ∧
      (print_packet p buf cc src now).ping.stats.transmitted = p.stats.transmitted ∧
      (print_packet p buf cc src now).stdout =
        [.int cc, .str " bytes from ", .str src, .str ": icmp_seq=",
            .int (be16 buf (ip_header_len buf + 6))] ++
          (if p.timing then
            [.str " time=", .int (triptime now (load_timeval p.send_packet 8)), .str " ms"]
          else []) ++ [.endl] ∧
      (p.timing = true →
        (print_packet p buf cc src now).ping.stats.total_time =
            p.stats.total_time + triptime now (load_timeval p.send_packet 8) ∧
          (print_packet p buf cc src now).ping.stats.min_time =
            min p.stats.min_time (triptime now (load_timeval p.send_packet 8)) ∧
          (print_packet p buf cc src now).ping.stats.max_time =
            max p.stats.max_time (triptime now (load_timeval p.send_packet 8))) ∧
      (p.timing = false →
        (print_packet p buf cc src now).ping.stats.total_time = p.stats.total_time ∧
          (print_packet p buf cc src now).ping.stats.min_time = p.stats.min_time ∧
          (print_packet p buf cc src now).ping.stats.max_time = p.stats.max_time) := by
  have h1 : ¬ cc < (ip_header_len buf : Int) + ICMP_MINLEN := by
    simp only [ICMP_MINLEN]
    omega
  have h2 : ¬ ((buf.drop (ip_header_len buf)).getD 0 0).val ≠ ICMP_ECHOREPLY := by
    rw [getD_drop, Nat.add_zero, htype]
    simp [ICMP_ECHOREPLY]
  have h3 : ¬ (ntohs (word16 ((buf.drop (ip_header_len buf)).getD 4 0)
      ((buf.drop (ip_header_len buf)).getD 5 0)) : Int) ≠ p.ident := by
    rw [ntohs_word16, getD_drop, getD_drop]
    exact not_not.mpr hid
  have hseq : ntohs (word16 ((buf.drop (ip_header_len buf)).getD 6 0)
      ((buf.drop (ip_header_len buf)).getD 7 0)) = be16 buf (ip_header_len buf + 6) := by
    rw [ntohs_word16, getD_drop, getD_drop]
    rfl
  unfold print_packet
  rw [if_neg h1]
  simp only [if_neg h2, if_neg h3, hseq, sizeof_icmphdr]
  generalize triptime now (load_timeval p.send_packet 8) = t
  by_cases ht : p.timing = true
  · rw [if_pos ht, if_pos ht]
    by_cases ha : t < p.stats.min_time <;> by_cases hb : t > p.stats.max_time
    all_goals
      refine ⟨?_, ?_, ?_, fun _ => ⟨?_, ?_, ?_⟩, fun h => absurd (ht.symm.trans h) (by simp)⟩
    all_goals simp only [ha, hb, if_true, if_false, min_def, max_def, List.cons_append,
      List.nil_append]
    all_goals first | rfl | (split <;> omega)
  · have hf : p.timing = false := by simpa using ht
    rw [hf]
    exact ⟨rfl, rfl, rfl, fun h => absurd h (by simp), fun _ => ⟨rfl, rfl, rfl⟩⟩

/-- C6 at an 84-byte Echo Reply with sequence 9, timing disabled. -/
theorem C6_witness :
    ((ip_header_len example_reply : Int) + 8 ≤ 84 ∧
      (example_reply.getD (ip_header_len example_reply) 0).val = 0 ∧
      (be16 example_reply (ip_header_len example_reply + 4) : Int) = example_session.ident) ∧
    (print_packet example_session example_reply 84 "127.0.0.1" ⟨5, 6⟩).ping.stats.received = 1 ∧
    (print_packet example_session example_reply 84 "127.0.0.1" ⟨5, 6⟩).ping.stats.received
      = example_session.stats.received + 1 ∧
    (print_packet example_session example_reply 84 "127.0.0.1" ⟨5, 6⟩).stdout =
      [.int 84, .str " bytes from ", .str "127.0.0.1", .str ": icmp_seq=", .int 9, .endl] :=
  ⟨⟨by decide, by decide, by decide⟩, by decide,
    (C6_print_packet_accepts_reply example_session example_reply 84 "127.0.0.1" ⟨5, 6⟩
      (by decide) (by decide) (by decide)).1,
    by decide⟩

/-- The value of `triptime` for timestamps in normal form with receive not before
send, as long as the elapsed whole milliseconds fit in `int`. -/
theorem triptime_eq (r s : Timeval) (hs0 : 0 ≤ s.tv_usec) (hs1 : s.tv_usec < 1000000)
    (hr0 : 0 ≤ r.tv_usec) (hr1 : r.tv_usec < 1000000)
    (hle : s.tv_sec * 1000000 + s.tv_usec ≤ r.tv_sec * 1000000 + r.tv_usec)
    (hfit : ((r.tv_sec - s.tv_sec) * 1000000 + (r.tv_usec - s.tv_usec)) / 1000 < 2 ^ 31) :
    triptime r s = ((r.tv_sec - s.tv_sec) * 1000000 + (r.tv_usec - s.tv_usec)) / 1000 := by
  unfold triptime time_subtract
  by_cases hb : r.tv_usec - s.tv_usec < 0
  · simp only [if_pos hb]
    rw [Int.tdiv_eq_ediv (by omega) (by norm_num), toInt32_of_range _ (by omega) (by omega)]
    omega
  · simp only [if_neg hb]
    rw [Int.tdiv_eq_ediv (by omega) (by norm_num), toInt32_of_range _ (by omega) (by omega)]
    omega

/-- C7 (as stated) fails: for the send time (0 s, 0 us) and the receive time
(2147484 s, 0 us) the elapsed time is 2147484000 ms, which does not fit the
`int triptime`; the code computes -2147483296. -/
theorem C7_counterexample :
    ((0 : Int) ≤ 0 ∧ (0 : Int) < 1000000 ∧
      (0 : Int) * 1000000 + 0 ≤ 2147484 * 1000000 + 0) ∧
    triptime ⟨2147484, 0⟩ ⟨0, 0⟩ = -2147483296 ∧
    Int.fdiv ((2147484 - 0) * 1000000 + (0 - 0)) 1000 = 2147484000 ∧
    triptime ⟨2147484, 0⟩ ⟨0, 0⟩ ≠ Int.fdiv ((2147484 - 0) * 1000000 + (0 - 0)) 1000 := by
  decide

/-- C7 (amended): for every send timestamp and receive timestamp with both
microsecond fields in [0, 1000000) and receive time ≥ send time, if the elapsed
whole milliseconds are below 2^31 (they fit the `int triptime`), then the
triptime computed by `time_subtract` followed by `tv_sec * 1000 + tv_usec / 1000`
is floor(((sec_r - sec_s) * 1000000 + (usec_r - usec_s)) / 1000); in particular
a receive time of T + 237 ms gives 237 for every T, also when the microsecond
field wraps across a second boundary. -/
theorem C7_triptime_is_elapsed_milliseconds (r s : Timeval)
    (hs0 : 0 ≤ s.tv_usec) (hs1 : s.tv_usec < 1000000)
    (hr0 : 0 ≤ r.tv_usec) (hr1 : r.tv_usec < 1000000)
    (hle : s.tv_sec * 1000000 + s.tv_usec ≤ r.tv_sec * 1000000 + r.tv_usec) :
    (Int.fdiv ((r.tv_sec - s.tv_sec) * 1000000 + (r.tv_usec - s.tv_usec)) 1000 < 2 ^ 31 →
        triptime r s =
          Int.fdiv ((r.tv_sec - s.tv_sec) * 1000000 + (r.tv_usec - s.tv_usec)) 1000) ∧
      (r.tv_sec * 1000000 + r.tv_usec = s.tv_sec * 1000000 + s.tv_usec + 237000 →
        triptime r s = 237) := by
  constructor
  · intro hfit
    rw [Int.fdiv_eq_ediv _ (by norm_num)] at hfit ⊢
    exact triptime_eq r s hs0 hs1 hr0 hr1 hle hfit
  · intro h237
    rw [triptime_eq r s hs0 hs1 hr0 hr1 hle (by omega)]
    omega

/-- C7 (amended) at send time 10.863 s and receive time 11.100 s: 237 ms across a second boundary. -/
theorem C7_witness :
    ((0 : Int) ≤ 863000 ∧ (863000 : Int) < 1000000 ∧ (0 : Int) ≤ 100000 ∧
      (100000 : Int) < 1000000 ∧
      (10 : Int) * 1000000 + 863000 ≤ 11 * 1000000 + 100000) ∧
    triptime ⟨11, 100000⟩ ⟨10, 863000⟩ = 237 :=
  ⟨by decide,
    (C7_triptime_is_elapsed_milliseconds ⟨11, 100000⟩ ⟨10, 863000⟩ (by decide) (by decide)
      (by decide) (by decide) (by decide)).2 (by decide)⟩

theorem toSizeT_nonneg (x : Int) (h0 : 0 ≤ x) (h1 : x < 2 ^ 64) : (toSizeT x : Int) = x := by
  unfold toSizeT
  have e : x % 2 ^ 64 = x := Int.emod_eq_of_lt h0 h1
  rw [e]
  omega

theorem toSizeT_neg (x : Int) (h0 : -2 ^ 64 ≤ x) (h1 : x < 0) :
    (toSizeT x : Int) = x + 2 ^ 64 := by
  unfold toSizeT
  have e : x % 2 ^ 64 = x + 2 ^ 64 := by omega
  rw [e]
  omega

/-- The value of `packsize` for every `int` payload length: the sum wraps when it
exceeds `INT_MAX`. -/
theorem ctor_packsize_int (datalen : Int) (h0 : -2 ^ 31 ≤ datalen) (h1 : datalen < 2 ^ 31) :
    ctor_packsize datalen =
      if datalen < 2 ^ 31 - 8 then datalen + 8 else datalen + 8 - 2 ^ 32 := by
  unfold ctor_packsize toInt32 sizeof_icmphdr
  by_cases hneg : datalen < 0
  · have e := toSizeT_neg datalen (by omega) hneg
    push_cast
    rw [e]
    split <;> split <;> omega
  · have e := toSizeT_nonneg datalen (by omega) (by omega)
    push_cast
    rw [e]
    split <;> split <;> omega

theorem packsize_too_large_iff (datalen : Int) (h0 : -2 ^ 31 ≤ datalen)
    (h1 : datalen < 2 ^ 31) :
    packsize_too_large (ctor_packsize datalen) = true ↔ (datalen + 8 > 4096 ∨ datalen + 8 < 0) := by
  rw [ctor_packsize_int datalen h0 h1]
  unfold packsize_too_large sizeof_send_packet
  rw [decide_eq_true_iff]
  by_cases hbig : datalen < 2 ^ 31 - 8
  · rw [if_pos hbig]
    by_cases hneg : datalen + 8 < 0
    · have e := toSizeT_neg (datalen + 8) (by omega) hneg
      omega
    · have e := toSizeT_nonneg (datalen + 8) (by omega) (by omega)
      omega
  · rw [if_neg hbig]
    have e := toSizeT_neg (datalen + 8 - 2 ^ 32) (by omega) (by omega)
    omega

theorem ctor_of_unresolved (env : CtorEnv) (host : String) (datalen npackets : Int)
    (verbose : Bool) (h : ctor_resolved env host = none) :
    ctor env host datalen npackets verbose = ⟨false, [], .error (.resolve host)⟩ := by
  unfold ctor
  rw [h]

theorem ctor_of_resolved (env : CtorEnv) (host : String) (datalen npackets : Int)
    (verbose : Bool) (pr : String × String) (h : ctor_resolved env host = some pr) :
    ctor env host datalen npackets verbose =
      if packsize_too_large (ctor_packsize datalen) = true then
        ⟨false, [], .error .packet_size⟩
      else if env.socket < 0 then ⟨true, [], .error .raw_socket⟩
      else
        ⟨true,
          [.str "PING ", .str pr.1, .str " (", .str pr.2, .str "): ",
            .int datalen, .str " data bytes", .endl],
          .ok
            { hostname := pr.1, dest_ip := pr.2, sockfd := env.socket,
              datalen := datalen, packsize := ctor_packsize datalen, npackets := npackets,
              ident := env.getpid % 65536, verbose := verbose, timing := ctor_timing datalen,
              send_packet := env.send_packet, recv_packet := env.recv_packet,
              stats := {} }⟩ := by
  unfold ctor
  rw [h]

theorem ctor_resolved_of (env : CtorEnv) (host : String)
    (h : env.inet_pton ≠ none ∨ env.gethostbyname ≠ none) :
    ∃ pr, ctor_resolved env host = some pr := by
  unfold ctor_resolved
  cases hp : env.inet_pton with
  | some ip => exact ⟨_, rfl⟩
  | none =>
    cases hg : env.gethostbyname with
    | some pr => exact ⟨_, rfl⟩
    | none => simp [hp, hg] at h

/-- C8 (as stated) fails: for `datalen = -9`, where `datalen + 8 = -1 ≤ 4096`,
`packsize = -1` is converted to `size_t` in the comparison and the constructor
throws "Packet size too large". -/
theorem C8_counterexample :
    (-9 : Int) + 8 ≤ 4096 ∧ ctor_packsize (-9) = -1 ∧
      packsize_too_large (ctor_packsize (-9)) = true ∧
      (ctor example_env "127.0.0.1" (-9) 0 false).result = .error .packet_size ∧
      CtorError.packet_size.what = "Packet size too large" ∧
      (ctor example_env "127.0.0.1" (-9) 0 false).socket_called = false := by
  refine ⟨by decide, by decide, by decide, ?_, ?_, ?_⟩
  · rfl
  · rfl
  · rfl

/-- C8 (amended): for every `int` payload length, the constructor's size check
fails exactly when `datalen + 8` exceeds 4096 or is negative.  When it fails and
the host resolves, the constructor throws "Packet size too large" before it
calls `socket` and before it writes anything; when it does not fail, the
constructor does not throw that error. -/
theorem C8_packet_size_check (env : CtorEnv) (host : String) (datalen npackets : Int)
    (verbose : Bool) (h0 : -2 ^ 31 ≤ datalen) (h1 : datalen < 2 ^ 31) :
    (packsize_too_large (ctor_packsize datalen) = true ↔
        (datalen + 8 > 4096 ∨ datalen + 8 < 0)) ∧
      ((datalen + 8 > 4096 ∨ datalen + 8 < 0) →
        (env.inet_pton ≠ none ∨ env.gethostbyname ≠ none) →
        (ctor env host datalen npackets verbose).result = .error .packet_size ∧
          CtorError.packet_size.what = "Packet size too large" ∧
          (ctor env host datalen npackets verbose).socket_called = false ∧
          (ctor env host datalen npackets verbose).stdout = []) ∧
      ((0 ≤ datalen + 8 ∧ datalen + 8 ≤ 4096) →
        (ctor env host datalen npackets verbose).result ≠ .error .packet_size) := by
  have hiff := packsize_too_large_iff datalen h0 h1
  refine ⟨hiff, ?_, ?_⟩
  · intro hbad hres
    obtain ⟨pr, hpr⟩ := ctor_resolved_of env host hres
    rw [ctor_of_resolved env host datalen npackets verbose pr hpr, if_pos (hiff.mpr hbad)]
    exact ⟨rfl, rfl, rfl, rfl⟩
  · intro hok
    have hsmall : ¬ packsize_too_large (ctor_packsize datalen) = true := by
      intro hv
      have := hiff.mp hv
      omega
    cases hr : ctor_resolved env host with
    | none =>
      rw [ctor_of_unresolved env host datalen npackets verbose hr]
      exact fun h => nomatch h
    | some pr =>
      rw [ctor_of_resolved env host datalen npackets verbose pr hr, if_neg hsmall]
      by_cases hs : env.socket < 0
      · rw [if_pos hs]
        exact fun h => nomatch h
      · rw [if_neg hs]
        exact fun h => nomatch h

/-- C8 (amended) at payload length 5000. -/
theorem C8_witness :
    (-2 ^ 31 ≤ (5000 : Int) ∧ (5000 : Int) < 2 ^ 31) ∧
    (ctor example_env "127.0.0.1" 5000 0 false).result = .error .packet_size ∧
    (ctor example_env "127.0.0.1" 5000 0 false).socket_called = false :=
  ⟨by decide,
    ((C8_packet_size_check example_env "127.0.0.1" 5000 0 false (by decide) (by decide)).2.1
      (by decide) (by decide)).1,
    ((C8_packet_size_check example_env "127.0.0.1" 5000 0 false (by decide) (by decide)).2.1
      (by decide) (by decide)).2.2.1⟩

/-- The 32-bit difference and product of the loss percentage are exact when
the product fits an `int`. -/
theorem loss_product_of_fit (tx rx : Int) (hlo : -2 ^ 31 ≤ (tx - rx) * 100)
    (hhi : (tx - rx) * 100 < 2 ^ 31) :
    toInt32 (toInt32 (tx - rx) * 100) = (tx - rx) * 100 := by
  have e1 : toInt32 (tx - rx) = tx - rx := by
    unfold toInt32
    split <;> omega
  rw [e1]
  unfold toInt32
  split <;> omega

/-- The output of `finish` in closed form; `finish` never divides by zero. -/
theorem finish_eq (p : Ping) :
    finish p = some (
      [.str "\n--- ", .str p.hostname, .str " ping statistics ---", .endl,
        .int p.stats.transmitted, .str " packets transmitted, ",
        .int p.stats.received, .str " packets received, "] ++
      (if p.stats.transmitted > 0 then
        [.int (Int.tdiv (toInt32 (toInt32 (p.stats.transmitted - p.stats.received) * 100))
            p.stats.transmitted),
          .str "% packet loss", .endl]
      else []) ++
      (if p.stats.received > 0 ∧ p.timing = true then
        [.str "round-trip min/avg/max = ", .int p.stats.min_time, .str "/",
          .int (toInt32 (Int.tdiv p.stats.total_time p.stats.received)), .str "/",
          .int p.stats.max_time, .str " ms", .endl]
      else [])) := by
  unfold finish cdiv
  by_cases ht : p.stats.transmitted > 0
  · have ht0 : ¬ p.stats.transmitted = 0 := by omega
    by_cases hr : p.stats.received > 0 ∧ p.timing = true
    · have hr0 : ¬ p.stats.received = 0 := by omega
      simp only [if_pos ht, if_pos hr, if_neg ht0, if_neg hr0]
      rfl
    · simp only [if_pos ht, if_neg hr, if_neg ht0]
      rfl
  · by_cases hr : p.stats.received > 0 ∧ p.timing = true
    · have hr0 : ¬ p.stats.received = 0 := by omega
      simp only [if_neg ht, if_pos hr, if_neg hr0]
      rfl
    · simp only [if_neg ht, if_neg hr]
      rfl

/-- C9 (as stated) fails, in two ways.  With 3 packets transmitted and 4
received (a duplicated reply) the numerator is -100; C++ division truncates
toward zero and `finish` prints -33, while floor(-100 / 3) is -34.  With
30000000 packets transmitted and none received the `int` product 3000000000
wraps to -1294967296 and `finish` prints -43, while the floor is 100. -/
theorem C9_counterexample :
    ((0 : Int) < { example_session with
        stats := { transmitted := 3, received := 4 } }.stats.transmitted ∧
      finish { example_session with stats := { transmitted := 3, received := 4 } } =
        some [.str "\n--- ", .str "localhost", .str " ping statistics ---", .endl,
          .int 3, .str " packets transmitted, ", .int 4, .str " packets received, ",
          .int (-33), .str "% packet loss", .endl] ∧
      Int.fdiv ((3 - 4) * 100) 3 = -34) ∧
    ((0 : Int) < { example_session with
        stats := { transmitted := 30000000, received := 0 } }.stats.transmitted ∧
      finish { example_session with stats := { transmitted := 30000000, received := 0 } } =
        some [.str "\n--- ", .str "localhost", .str " ping statistics ---", .endl,
          .int 30000000, .str " packets transmitted, ", .int 0, .str " packets received, ",
          .int (-43), .str "% packet loss", .endl] ∧
      Int.fdiv ((30000000 - 0) * 100) 30000000 = 100) := by
  refine ⟨⟨by decide, ?_, by decide⟩, ⟨by decide, ?_, by decide⟩⟩
  · rw [finish_eq]
    rfl
  · rw [finish_eq]
    rfl

/-- C9 (amended): for every final statistics with `transmitted > 0` whose
product `(transmitted - received) * 100` fits a 32-bit `int`, the loss
percentage printed by `finish` is `(transmitted - received) * 100 / transmitted`
truncated toward zero, for every such value of `received`; it equals
floor((transmitted - received) * 100 / transmitted) whenever
`received ≤ transmitted`. -/
theorem C9_finish_loss_percentage (p : Ping) (htx : p.stats.transmitted > 0)
    (hlo : -2 ^ 31 ≤ (p.stats.transmitted - p.stats.received) * 100)
    (hhi : (p.stats.transmitted - p.stats.received) * 100 < 2 ^ 31) :
    finish p = some (
      [.str "\n--- ", .str p.hostname, .str " ping statistics ---", .endl,
        .int p.stats.transmitted, .str " packets transmitted, ",
        .int p.stats.received, .str " packets received, ",
        .int (Int.tdiv ((p.stats.transmitted - p.stats.received) * 100) p.stats.transmitted),
        .str "% packet loss", .endl] ++
      (if p.stats.received > 0 ∧ p.timing = true then
        [.str "round-trip min/avg/max = ", .int p.stats.min_time, .str "/",
          .int (toInt32 (Int.tdiv p.stats.total_time p.stats.received)), .str "/",
          .int p.stats.max_time, .str " ms", .endl]
      else [])) ∧
    (p.stats.received ≤ p.stats.transmitted →
      Int.tdiv ((p.stats.transmitted - p.stats.received) * 100) p.stats.transmitted =
        Int.fdiv ((p.stats.transmitted - p.stats.received) * 100) p.stats.transmitted) := by
  constructor
  · rw [finish_eq, if_pos htx, loss_product_of_fit _ _ hlo hhi]
    rfl
  · intro hle
    have hnum : 0 ≤ (p.stats.transmitted - p.stats.received) * 100 := by omega
    exact (Int.fdiv_eq_tdiv hnum (by omega)).symm

/-- C9 (amended) at 3 transmitted, 2 received: 33% loss. -/
theorem C9_witness :
    ({ example_session with stats := { transmitted := 3, received := 2 } }.stats.transmitted > 0 ∧
      (-2 ^ 31 : Int) ≤ (3 - 2) * 100 ∧ ((3 - 2) * 100 : Int) < 2 ^ 31) ∧
    finish { example_session with stats := { transmitted := 3, received := 2 } } =
      some [.str "\n--- ", .str "localhost", .str " ping statistics ---", .endl,
        .int 3, .str " packets transmitted, ", .int 2, .str " packets received, ",
        .int 33, .str "% packet loss", .endl] :=
  ⟨⟨by decide, by decide, by decide⟩,
    (C9_finish_loss_percentage
      { example_session with stats := { transmitted := 3, received := 2 } } (by decide)
      (by decide) (by decide)).1⟩

/-- C10 (as stated) fails: with `transmitted = 0` the guard that avoids the
division skips the whole loss output; `finish` prints
`0 packets transmitted, 0 packets received, ` and no `0% packet loss`. -/
theorem C10_counterexample :
    { example_session with stats := {} }.stats.transmitted = 0 ∧
    finish { example_session with stats := {} } =
      some [.str "\n--- ", .str "localhost", .str " ping statistics ---", .endl,
        .int 0, .str " packets transmitted, ", .int 0, .str " packets received, "] ∧
    finish { example_session with stats := {} } ≠
      some [.str "\n--- ", .str "localhost", .str " ping statistics ---", .endl,
        .int 0, .str " packets transmitted, ", .int 0, .str " packets received, ",
        .int 0, .str "% packet loss", .endl] := by
  refine ⟨rfl, ?_, ?_⟩
  · rw [finish_eq]
    rfl
  · rw [finish_eq]
    decide

/-- C10 (amended): for final statistics with `transmitted = 0` (and any
`received`), `finish` performs no division by zero and prints no loss
percentage: the statistics text is `0 packets transmitted, <rx> packets
received, ` and nothing about packet loss follows it. -/
theorem C10_finish_nothing_transmitted (p : Ping) (htx : p.stats.transmitted = 0) :
    ∃ rest : List Tok,
      finish p = some (
        [.str "\n--- ", .str p.hostname, .str " ping statistics ---", .endl,
          .int 0, .str " packets transmitted, ",
          .int p.stats.received, .str " packets received, "] ++ rest) ∧
      Tok.str "% packet loss" ∉ rest := by
  refine ⟨if p.stats.received > 0 ∧ p.timing = true then
      [.str "round-trip min/avg/max = ", .int p.stats.min_time, .str "/",
        .int (toInt32 (Int.tdiv p.stats.total_time p.stats.received)), .str "/",
        .int p.stats.max_time, .str " ms", .endl]
    else [], ?_, ?_⟩
  · rw [finish_eq, htx, if_neg (by decide)]
    rfl
  · split
    · intro h
      simp only [List.mem_cons, List.mem_singleton, List.not_mem_nil, or_false,
        reduceCtorEq, false_or] at h
      rcases h with h | h | h | h
      all_goals exact absurd (Tok.str.inj h) (by decide)
    · exact List.not_mem_nil _

/-- C10 (amended) at 0 transmitted, 2 received. -/
theorem C10_witness :
    { example_session with stats := { received := 2 } }.stats.transmitted = 0 ∧
    ∃ rest : List Tok,
      finish { example_session with stats := { received := 2 } } =
        some ([.str "\n--- ", .str "localhost", .str " ping statistics ---", .endl,
          .int 0, .str " packets transmitted, ", .int 2, .str " packets received, "] ++ rest) ∧
      Tok.str "% packet loss" ∉ rest :=
  ⟨rfl, C10_finish_nothing_transmitted { example_session with stats := { received := 2 } } rfl⟩


/-! ## The steps of the engine -/

theorem toInt32_range (x : Int) : -2 ^ 31 ≤ toInt32 x ∧ toInt32 x < 2 ^ 31 := by
  unfold toInt32
  split <;> omega

theorem triptime_range (r s : Timeval) : -2 ^ 31 ≤ triptime r s ∧ triptime r s < 2 ^ 31 := by
  unfold triptime
  exact toInt32_range _

/-- The three things `print_packet` can do to the object: nothing (the buffer is
rejected), count a reply (timing disabled), count a reply and record its
triptime (timing enabled). -/
theorem print_packet_cases (p : Ping) (buf : List Byte) (cc : Int) (src : String)
    (now : Timeval) :
    (print_packet p buf cc src now).ping = p ∨
      (p.timing = false ∧
        (print_packet p buf cc src now).ping =
          { p with stats := { p.stats with received := p.stats.received + 1 } }) ∨
      (p.timing = true ∧
        (print_packet p buf cc src now).ping =
          { p with stats :=
            { transmitted := p.stats.transmitted,
              received := p.stats.received + 1,
              min_time := min p.stats.min_time (triptime now (load_timeval p.send_packet 8)),
              max_time := max p.stats.max_time (triptime now (load_timeval p.send_packet 8)),
              total_time :=
                p.stats.total_time + triptime now (load_timeval p.send_packet 8) } }) := by
  unfold print_packet
  by_cases h1 : cc < (ip_header_len buf : Int) + ICMP_MINLEN
  · rw [if_pos h1]
    exact Or.inl rfl
  · rw [if_neg h1]
    by_cases h2 : ((buf.drop (ip_header_len buf)).getD 0 0).val ≠ ICMP_ECHOREPLY
    · refine Or.inl ?_
      simp only [if_pos h2]
    · by_cases h3 : (ntohs (word16 ((buf.drop (ip_header_len buf)).getD 4 0)
          ((buf.drop (ip_header_len buf)).getD 5 0)) : Int) ≠ p.ident
      · refine Or.inl ?_
        simp only [if_neg h2, if_pos h3]
      · simp only [if_neg h2, if_neg h3, sizeof_icmphdr]
        generalize triptime now (load_timeval p.send_packet 8) = t
        by_cases ht : p.timing = true
        · refine Or.inr (Or.inr ⟨ht, ?_⟩)
          rw [if_pos ht]
          by_cases ha : t < p.stats.min_time <;> by_cases hb : t > p.stats.max_time
          all_goals simp only [ha, hb, if_true, if_false]
          all_goals congr 2
          all_goals simp only [min_def, max_def]
          all_goals (split <;> omega)
        · have hf : p.timing = false := by simpa using ht
          refine Or.inr (Or.inl ⟨hf, ?_⟩)
          rw [hf]
          rfl


theorem send_ping_ping (p : Ping) (now : Timeval) (sendto : Int) :
    (send_ping p now sendto).ping =
      { p with
        send_packet := store16 (send_ping_filled p now) 2
          (calculate_checksum (send_ping_filled p now) p.packsize),
        stats := { p.stats with
          transmitted := if sendto ≤ 0 then p.stats.transmitted else p.stats.transmitted + 1 } } := by
  unfold send_ping send_ping_filled
  by_cases h : sendto ≤ 0 <;> simp [h]

theorem send_ping_config (p : Ping) (now : Timeval) (sendto : Int) :
    SameConfig p (send_ping p now sendto).ping := by
  rw [send_ping_ping]
  exact ⟨rfl, rfl, rfl, rfl, by simp [store16_length, send_ping_filled_length]⟩

theorem print_packet_config (p : Ping) (buf : List Byte) (cc : Int) (src : String)
    (now : Timeval) :
    SameConfig p (print_packet p buf cc src now).ping ∧
      (print_packet p buf cc src now).ping.send_packet = p.send_packet ∧
      (print_packet p buf cc src now).ping.stats.transmitted = p.stats.transmitted := by
  rcases print_packet_cases p buf cc src now with h | ⟨_, h⟩ | ⟨_, h⟩ <;> rw [h] <;>
    exact ⟨⟨rfl, rfl, rfl, rfl, rfl⟩, rfl, rfl⟩

theorem receive_ping_eq (p : Ping) (recv : RecvResult) (now : Timeval) :
    (receive_ping p recv now).ping = p ∨
      ∃ (buf : List Byte) (cc : Int) (src : String),
        (receive_ping p recv now).ping =
          (print_packet { p with recv_packet := buf } buf cc src now).ping := by
  cases recv with
  | error again msg => exact Or.inl rfl
  | datagram data src => exact Or.inr ⟨_, _, _, rfl⟩

theorem receive_ping_config (p : Ping) (recv : RecvResult) (now : Timeval) :
    SameConfig p (receive_ping p recv now).ping ∧
      (receive_ping p recv now).ping.send_packet = p.send_packet ∧
      (receive_ping p recv now).ping.stats.transmitted = p.stats.transmitted := by
  rcases receive_ping_eq p recv now with h | ⟨buf, cc, src, h⟩
  · rw [h]
    exact ⟨⟨rfl, rfl, rfl, rfl, rfl⟩, rfl, rfl⟩
  · rw [h]
    exact print_packet_config { p with recv_packet := buf } buf cc src now

theorem alarm_handler_eq (p : Ping) (now : Timeval) (sendto : Int) :
    alarm_handler p now sendto =
      if p.npackets = 0 ∨ p.stats.transmitted < p.npackets then
        { ping := (send_ping p now sendto).ping, sent := some (send_ping p now sendto).packet,
          stderr := (send_ping p now sendto).stderr, exit_on_alarm := false, alarm := 1 }
      else
        { ping := p, sent := none, stderr := [], exit_on_alarm := true,
          alarm :=
            if (if p.stats.received ≠ 0 then Int.tdiv (2 * p.stats.max_time) 1000 else 10) = 0
            then 1
            else (if p.stats.received ≠ 0 then Int.tdiv (2 * p.stats.max_time) 1000 else 10) } := by
  unfold alarm_handler
  rfl

theorem SameConfig.refl (p : Ping) : SameConfig p p := ⟨rfl, rfl, rfl, rfl, rfl⟩

theorem SameConfig.trans {p q r : Ping} (h1 : SameConfig p q) (h2 : SameConfig q r) :
    SameConfig p r :=
  ⟨h2.1.trans h1.1, h2.2.1.trans h1.2.1, h2.2.2.1.trans h1.2.2.1,
    h2.2.2.2.1.trans h1.2.2.2.1, h2.2.2.2.2.trans h1.2.2.2.2⟩

theorem alarm_handler_config (p : Ping) (now : Timeval) (sendto : Int) :
    SameConfig p (alarm_handler p now sendto).ping := by
  rw [alarm_handler_eq]
  split
  · exact send_ping_config p now sendto
  · exact SameConfig.refl p

/-- Induction over the events of a session. -/
theorem reachable_induction (p0 : Ping) (P : Session → Prop)
    (hstart : ∀ now sendto, P (run_start p0 now sendto))
    (hstep : ∀ s e, P s → P (step s e)) :
    ∀ s, Reachable p0 s → P s := by
  rintro s ⟨now, sendto, events, rfl⟩
  have key : ∀ (es : List Event) (s0 : Session), P s0 → P (run_events s0 es) := by
    intro es
    induction es with
    | nil => exact fun s0 h => h
    | cons e es ih => exact fun s0 h => ih (step s0 e) (hstep s0 e h)
  exact key events _ (hstart now sendto)

theorem step_of_not_running (s : Session) (e : Event) (h : s.status ≠ .running) :
    step s e = s := by
  unfold step
  cases hst : s.status with
  | running => exact absurd hst h
  | finished => rfl
  | exited => rfl
  | undefined => rfl

theorem step_sigint (s : Session) (h : s.status = .running) :
    step s .sigint = { s with status := .exited } := by
  unfold step
  rw [h]

theorem step_sigalrm (s : Session) (h : s.status = .running) :
    step s .sigalrm =
      match s.timer with
      | none => s
      | some _ =>
        if s.exit_on_alarm then { s with status := .exited, timer := none }
        else { s with alarm_flag := true, timer := none } := by
  unfold step
  rw [h]

theorem step_advance (s : Session) (now : Timeval) (sendto : Int) (recv : RecvResult)
    (h : s.status = .running) :
    step s (.advance now sendto recv) =
      match s.pc with
      | .check_alarm => step_check_alarm s now sendto
      | .receive => step_receive s recv now
      | .check_done => step_check_done s := by
  unfold step
  rw [h]

theorem step_check_done_ping (s : Session) :
    (step_check_done s).ping = s.ping ∧ (step_check_done s).sent = s.sent := by
  unfold step_check_done
  split
  · split <;> exact ⟨rfl, rfl⟩
  · exact ⟨rfl, rfl⟩

/-- Every step of a session keeps the object and the list of sends, or is the
call of `alarm_handler` or of `receive_ping` in the loop body. -/
theorem step_ping_cases (s : Session) (e : Event) :
    ((step s e).ping = s.ping ∧ (step s e).sent = s.sent) ∨
      (∃ now sendto, s.status = .running ∧ s.pc = .check_alarm ∧ s.alarm_flag = true ∧
        step s e = step_check_alarm s now sendto) ∨
      (∃ recv now, s.status = .running ∧ s.pc = .receive ∧
        step s e = step_receive s recv now) := by
  by_cases hst : s.status = .running
  · cases e with
    | sigint =>
      refine Or.inl ?_
      rw [step_sigint s hst]
      exact ⟨rfl, rfl⟩
    | sigalrm =>
      refine Or.inl ?_
      rw [step_sigalrm s hst]
      cases s.timer with
      | none => exact ⟨rfl, rfl⟩
      | some t =>
        show (if s.exit_on_alarm = true then _ else _ : Session).ping = s.ping ∧
          (if s.exit_on_alarm = true then _ else _ : Session).sent = s.sent
        split <;> exact ⟨rfl, rfl⟩
    | advance now sendto recv =>
      cases hpc : s.pc with
      | check_alarm =>
        by_cases hf : s.alarm_flag = true
        · refine Or.inr (Or.inl ⟨now, sendto, hst, rfl, hf, ?_⟩)
          rw [step_advance s now sendto recv hst, hpc]
        · refine Or.inl ?_
          rw [step_advance s now sendto recv hst, hpc]
          constructor <;> simp only [step_check_alarm, if_neg hf]
      | receive =>
        refine Or.inr (Or.inr ⟨recv, now, hst, rfl, ?_⟩)
        rw [step_advance s now sendto recv hst, hpc]
      | check_done =>
        refine Or.inl ?_
        rw [step_advance s now sendto recv hst, hpc]
        exact step_check_done_ping s
  · refine Or.inl ?_
    rw [step_of_not_running s e hst]
    exact ⟨rfl, rfl⟩


theorem step_check_alarm_ping (s : Session) (now : Timeval) (sendto : Int)
    (h : s.alarm_flag = true) :
    (step_check_alarm s now sendto).ping = (alarm_handler s.ping now sendto).ping := by
  unfold step_check_alarm
  rw [if_pos h]

theorem step_receive_ping (s : Session) (recv : RecvResult) (now : Timeval) :
    (step_receive s recv now).ping = (receive_ping s.ping recv now).ping := rfl

/-- Induction over the events of a session, for a property of the object. -/
theorem reachable_ping_induction (p0 : Ping) (Q : Ping → Prop)
    (hstart : ∀ now sendto, Q (send_ping p0 now sendto).ping)
    (halarm : ∀ p now sendto, Q p → Q (alarm_handler p now sendto).ping)
    (hrecv : ∀ p recv now, Q p → Q (receive_ping p recv now).ping) :
    ∀ s, Reachable p0 s → Q s.ping := by
  apply reachable_induction p0 (fun s => Q s.ping)
  · intro now sendto
    exact hstart now sendto
  · intro s e hs
    rcases step_ping_cases s e with h | ⟨now, sendto, _, _, hf, h⟩ | ⟨recv, now, _, _, h⟩
    · rw [h.1]
      exact hs
    · rw [h, step_check_alarm_ping s now sendto hf]
      exact halarm _ _ _ hs
    · rw [h, step_receive_ping]
      exact hrecv _ _ _ hs

theorem reachable_config (p0 : Ping) (s : Session) (h : Reachable p0 s) :
    SameConfig p0 s.ping := by
  refine reachable_ping_induction p0 (fun p => SameConfig p0 p) ?_ ?_ ?_ s h
  · exact fun now sendto => send_ping_config p0 now sendto
  · exact fun p now sendto hp => hp.trans (alarm_handler_config p now sendto)
  · exact fun p recv now hp => hp.trans (receive_ping_config p recv now).1

theorem StatsInv_of_stats (p q : Ping) (ht : q.timing = p.timing)
    (hr : q.stats.received = p.stats.received) (hmin : q.stats.min_time = p.stats.min_time)
    (hmax : q.stats.max_time = p.stats.max_time)
    (htot : q.stats.total_time = p.stats.total_time) (h : StatsInv p) : StatsInv q := by
  unfold StatsInv at h ⊢
  rw [ht, hr, hmin, hmax, htot]
  exact h

theorem send_ping_StatsInv (p : Ping) (now : Timeval) (sendto : Int) (h : StatsInv p) :
    StatsInv (send_ping p now sendto).ping := by
  refine StatsInv_of_stats p _ ?_ ?_ ?_ ?_ ?_ h <;> rw [send_ping_ping]

theorem alarm_handler_StatsInv (p : Ping) (now : Timeval) (sendto : Int) (h : StatsInv p) :
    StatsInv (alarm_handler p now sendto).ping := by
  rw [alarm_handler_eq]
  split
  · exact send_ping_StatsInv p now sendto h
  · exact h

theorem print_packet_StatsInv (p : Ping) (buf : List Byte) (cc : Int) (src : String)
    (now : Timeval) (h : StatsInv p) : StatsInv (print_packet p buf cc src now).ping := by
  obtain ⟨hr, hmin, hmax, hsum⟩ := h
  have ht := triptime_range now (load_timeval p.send_packet 8)
  rcases print_packet_cases p buf cc src now with e | ⟨hf, e⟩ | ⟨htm, e⟩
  · rw [e]
    exact ⟨hr, hmin, hmax, hsum⟩
  · rw [e]
    refine ⟨?_, hmin, hmax, ?_⟩
    · show 0 ≤ p.stats.received + 1
      omega
    · intro habs
      have habs2 : p.timing = true := habs
      rw [hf] at habs2
      exact absurd habs2 (by decide)
  · rw [e]
    obtain ⟨hlo, hhi⟩ := hsum htm
    generalize triptime now (load_timeval p.send_packet 8) = t at ht ⊢
    refine ⟨?_, ?_, ?_, fun _ => ⟨?_, ?_⟩⟩
    · show 0 ≤ p.stats.received + 1
      omega
    · show -2 ^ 31 ≤ min p.stats.min_time t
      exact le_min hmin ht.1
    · show max p.stats.max_time t < 2 ^ 31
      exact max_lt hmax ht.2
    · show (p.stats.received + 1) * min p.stats.min_time t ≤ p.stats.total_time + t
      have h1 : min p.stats.min_time t ≤ p.stats.min_time := min_le_left _ _
      have h2 : min p.stats.min_time t ≤ t := min_le_right _ _
      have h3 := mul_le_mul_of_nonneg_left h1 hr
      linarith
    · show p.stats.total_time + t ≤ (p.stats.received + 1) * max p.stats.max_time t
      have h1 : p.stats.max_time ≤ max p.stats.max_time t := le_max_left _ _
      have h2 : t ≤ max p.stats.max_time t := le_max_right _ _
      have h3 := mul_le_mul_of_nonneg_left h1 hr
      linarith

theorem receive_ping_StatsInv (p : Ping) (recv : RecvResult) (now : Timeval)
    (h : StatsInv p) : StatsInv (receive_ping p recv now).ping := by
  rcases receive_ping_eq p recv now with e | ⟨buf, cc, src, e⟩
  · rw [e]
    exact h
  · rw [e]
    exact print_packet_StatsInv _ buf cc src now h

theorem StatsInv_fresh (p0 : Ping) (h0 : p0.stats = {}) : StatsInv p0 := by
  unfold StatsInv
  rw [h0]
  refine ⟨by decide, by decide, by decide, fun _ => ⟨?_, ?_⟩⟩ <;> simp

theorem reachable_StatsInv (p0 : Ping) (h0 : p0.stats = {}) (s : Session)
    (h : Reachable p0 s) : StatsInv s.ping := by
  refine reachable_ping_induction p0 StatsInv ?_ ?_ ?_ s h
  · exact fun now sendto => send_ping_StatsInv p0 now sendto (StatsInv_fresh p0 h0)
  · exact fun p now sendto hp => alarm_handler_StatsInv p now sendto hp
  · exact fun p recv now hp => receive_ping_StatsInv p recv now hp

/-- The truncated quotient of a total by a positive count lies between any
bounds of the summands. -/
theorem tdiv_between (tot r lo hi : Int) (hr : 0 < r) (hlo : r * lo ≤ tot) (hhi : tot ≤ r * hi) :
    lo ≤ Int.tdiv tot r ∧ Int.tdiv tot r ≤ hi := by
  by_cases hneg : 0 ≤ tot
  · rw [Int.tdiv_eq_ediv hneg (by omega)]
    constructor
    · exact Int.le_ediv_of_mul_le hr (by linarith)
    · exact Int.ediv_le_of_le_mul hr (by linarith)
  · have e : Int.tdiv tot r = -((-tot) / r) := by
      have h1 : Int.tdiv (-(-tot)) r = -(Int.tdiv (-tot) r) := Int.neg_tdiv _ _
      rw [neg_neg] at h1
      rw [h1, Int.tdiv_eq_ediv (by omega) (by omega)]
    rw [e]
    constructor
    · have : (-tot) / r ≤ -lo := Int.ediv_le_of_le_mul hr (by linarith)
      omega
    · have : -hi ≤ (-tot) / r := Int.le_ediv_of_mul_le hr (by linarith)
      omega


/-! ## C11 -/

/-- C11: for the final statistics of every session (every state a session can
reach), `finish` prints the line `round-trip min/avg/max = <min>/<avg>/<max> ms`
if and only if timing is enabled and `received > 0`: after the counts the report
consists of exactly that line in that case and of nothing otherwise; when
printed, `<min>` is `min_time`, `<max>` is `max_time` and `<avg>` is
`total_time / received` with truncating division (the conversion to `int` does
not change it, and `received > 0` guards the division). -/
theorem C11_finish_round_trip_line (p0 : Ping) (s : Session) (h0 : p0.stats = {})
    (hr : Reachable p0 s) :
    finish s.ping = some (finish_counts s.ping ++
      (if s.ping.timing = true ∧ s.ping.stats.received > 0 then
        [.str "round-trip min/avg/max = ", .int s.ping.stats.min_time, .str "/",
          .int (Int.tdiv s.ping.stats.total_time s.ping.stats.received), .str "/",
          .int s.ping.stats.max_time, .str " ms", .endl]
      else [])) := by
  obtain ⟨_, hmin, hmax, hsum⟩ := reachable_StatsInv p0 h0 s hr
  rw [finish_eq, finish_counts]
  by_cases hc : s.ping.timing = true ∧ s.ping.stats.received > 0
  · have hc2 : s.ping.stats.received > 0 ∧ s.ping.timing = true := ⟨hc.2, hc.1⟩
    obtain ⟨hlo, hhi⟩ := hsum hc.1
    obtain ⟨a, b⟩ := tdiv_between _ _ _ _ hc.2 hlo hhi
    have hfit : toInt32 (Int.tdiv s.ping.stats.total_time s.ping.stats.received) =
        Int.tdiv s.ping.stats.total_time s.ping.stats.received := by
      generalize Int.tdiv s.ping.stats.total_time s.ping.stats.received = q at a b
      unfold toInt32
      split <;> omega
    rw [if_pos hc, if_pos hc2, hfit]
  · have hc2 : ¬ (s.ping.stats.received > 0 ∧ s.ping.timing = true) := fun h => hc ⟨h.2, h.1⟩
    rw [if_neg hc, if_neg hc2]

/-- C11 at the end of the session with three replies of 20, 30 and 25 ms: the
line reads `round-trip min/avg/max = 20/25/30 ms`. -/
theorem C11_witness :
    ((example_ping56 3).stats = {} ∧ Reachable (example_ping56 3) session_three_replies) ∧
    session_three_replies.ping.stats =
      { transmitted := 3, received := 3, min_time := 20, max_time := 30, total_time := 75 } ∧
    finish session_three_replies.ping =
      some (finish_counts session_three_replies.ping ++
        (if session_three_replies.ping.timing = true ∧
            session_three_replies.ping.stats.received > 0 then
          [.str "round-trip min/avg/max = ",
            .int session_three_replies.ping.stats.min_time, .str "/",
            .int (Int.tdiv session_three_replies.ping.stats.total_time
              session_three_replies.ping.stats.received), .str "/",
            .int session_three_replies.ping.stats.max_time, .str " ms", .endl]
        else [])) :=
  ⟨⟨rfl, ⟨_, _, _, rfl⟩⟩, by decide,
    C11_finish_round_trip_line (example_ping56 3) session_three_replies rfl ⟨_, _, _, rfl⟩⟩


/-! ## C12, C13 -/

/-- C12, the code at the failing scenario.  When the limit is reached and
nothing was received, `alarm_handler` sends nothing, replaces the SIGALRM
handler by `exit(0)` and arms `alarm(10)`; when that alarm elapses the process
ends and nothing is written to `std::cout`.  In the session with limit 2 and no
reply: two packets are transmitted, the grace period of 10 seconds is armed,
and after it the process has exited with an empty `std::cout`, while `finish`,
had it been called, would have printed `2 packets transmitted, 0 packets
received, 100% packet loss` and no round-trip line. -/
theorem C12_grace_expiry_prints_no_report :
    (∀ (p : Ping) (now : Timeval) (sendto : Int),
      p.npackets > 0 → p.stats.transmitted ≥ p.npackets → p.stats.received = 0 →
        alarm_handler p now sendto =
          { ping := p, sent := none, stderr := [], exit_on_alarm := true, alarm := 10 }) ∧
    (∀ (s : Session) (t : Int),
      s.status = .running → s.exit_on_alarm = true → s.timer = some t →
        (step s .sigalrm).status = .exited ∧ (step s .sigalrm).stdout = s.stdout) ∧
    (ctor example_env "127.0.0.1" 56 2 false).result = .ok (example_ping56 2) ∧
    (session_no_reply_draining.status = .running ∧
      session_no_reply_draining.ping.stats.transmitted = 2 ∧
      session_no_reply_draining.sent.length = 2 ∧
      session_no_reply_draining.exit_on_alarm = true ∧
      session_no_reply_draining.timer = some 10) ∧
    (session_no_reply_end = step session_no_reply_draining .sigalrm ∧
      session_no_reply_end.status = .exited ∧
      session_no_reply_end.stdout = [] ∧
      finish session_no_reply_end.ping =
        some [.str "\n--- ", .str "127.0.0.1", .str " ping statistics ---", .endl,
          .int 2, .str " packets transmitted, ", .int 0, .str " packets received, ",
          .int 100, .str "% packet loss", .endl]) := by
  refine ⟨?_, ?_, rfl, by decide, ?_, by decide, by decide, ?_⟩
  · intro p now sendto hn htx hrx
    rw [alarm_handler_eq, if_neg (by omega)]
    simp only [hrx, ne_eq, not_true_eq_false, if_false]
    rfl
  · intro s t hrun hx ht
    rw [step_sigalrm s hrun, ht]
    constructor <;> simp only [hx, if_true]
  · rfl
  · rw [finish_eq]
    rfl


theorem step_check_done_eq (s : Session) :
    step_check_done s =
      if s.ping.npackets > 0 ∧ s.ping.stats.received ≥ s.ping.npackets then
        { s with
          stdout := s.stdout ++ (finish_counts s.ping ++
            (if s.ping.stats.received > 0 ∧ s.ping.timing = true then
              [.str "round-trip min/avg/max = ", .int s.ping.stats.min_time, .str "/",
                .int (toInt32 (Int.tdiv s.ping.stats.total_time s.ping.stats.received)),
                .str "/", .int s.ping.stats.max_time, .str " ms", .endl]
            else [])),
          status := .finished }
      else { s with pc := .check_alarm } := by
  unfold step_check_done
  rw [finish_eq]
  rfl

theorem step_check_alarm_status (s : Session) (now : Timeval) (sendto : Int) :
    (step_check_alarm s now sendto).status = s.status ∧
      (step_check_alarm s now sendto).stdout = s.stdout := by
  unfold step_check_alarm
  split <;> exact ⟨rfl, rfl⟩

theorem step_sigalrm_status (s : Session) (hrun : s.status = .running) :
    (step s .sigalrm).status ≠ .finished := by
  rw [step_sigalrm s hrun]
  cases s.timer with
  | none =>
    show s.status ≠ .finished
    rw [hrun]
    decide
  | some t =>
    show (if s.exit_on_alarm = true then _ else _ : Session).status ≠ .finished
    split
    · show Status.exited ≠ .finished
      decide
    · show s.status ≠ .finished
      rw [hrun]
      decide

/-- C13: in a running session the run loop calls `finish` and stops exactly in
the statement at the end of an iteration, and exactly when a limit is set and
`received >= npackets` there: a step ends in the finished state if and only if
it is that statement with the condition true, it then appends the report of
`finish` to `std::cout` and no later event changes anything; with
`received < npackets` the statement only starts the next iteration.  In the
scenario `datalen = 56`, limit 3, three successful sends each answered by one
accepted reply, the session finishes and the report shows `3 packets
transmitted, 3 packets received, 0% packet loss`. -/
theorem C13_run_finishes_when_limit_received (s : Session) (e : Event)
    (hrun : s.status = .running) :
    ((step s e).status = .finished ↔
        (∃ now sendto recv, e = .advance now sendto recv) ∧ s.pc = .check_done ∧
          s.ping.npackets > 0 ∧ s.ping.stats.received ≥ s.ping.npackets) ∧
      ((step s e).status = .finished →
        (finish s.ping).map (fun out => s.stdout ++ out) = some (step s e).stdout ∧
          ∀ e2, step (step s e) e2 = step s e) ∧
      (s.pc = .check_done → ¬ (s.ping.npackets > 0 ∧ s.ping.stats.received ≥ s.ping.npackets) →
        ∀ now sendto recv, step s (.advance now sendto recv) = { s with pc := .check_alarm }) ∧
      ((ctor example_env "127.0.0.1" 56 3 false).result = .ok (example_ping56 3) ∧
        session_three_replies.status = .finished ∧
        session_three_replies.sent.map (fun r => r.ok) = [true, true, true] ∧
        session_three_replies.stdout.drop 27 =
          [.str "\n--- ", .str "127.0.0.1", .str " ping statistics ---", .endl,
            .int 3, .str " packets transmitted, ", .int 3, .str " packets received, ",
            .int 0, .str "% packet loss", .endl,
            .str "round-trip min/avg/max = ", .int 20, .str "/", .int 25, .str "/", .int 30,
            .str " ms", .endl]) := by
  have hfin : (step s e).status = .finished →
      (∃ now sendto recv, e = .advance now sendto recv) ∧ s.pc = .check_done ∧
        s.ping.npackets > 0 ∧ s.ping.stats.received ≥ s.ping.npackets := by
    intro h
    cases e with
    | sigint =>
      rw [step_sigint s hrun] at h
      exact absurd (show Status.exited = Status.finished from h) (by decide)
    | sigalrm => exact absurd h (step_sigalrm_status s hrun)
    | advance now sendto recv =>
      rw [step_advance s now sendto recv hrun] at h
      cases hpc : s.pc with
      | check_alarm =>
        rw [hpc] at h
        have := (step_check_alarm_status s now sendto).1
        rw [this, hrun] at h
        exact absurd h (by decide)
      | receive =>
        rw [hpc] at h
        have : (step_receive s recv now).status = s.status := rfl
        rw [this, hrun] at h
        exact absurd h (by decide)
      | check_done =>
        rw [hpc] at h
        refine ⟨⟨now, sendto, recv, rfl⟩, rfl, ?_⟩
        by_contra hc
        rw [step_check_done_eq, if_neg hc] at h
        rw [hrun] at h
        exact absurd h (by decide)
  refine ⟨⟨hfin, ?_⟩, ?_, ?_, ?_⟩
  · rintro ⟨⟨now, sendto, recv, rfl⟩, hpc, hc⟩
    rw [step_advance s now sendto recv hrun, hpc]
    show (step_check_done s).status = .finished
    rw [step_check_done_eq, if_pos hc]
  · intro h
    obtain ⟨⟨now, sendto, recv, rfl⟩, hpc, hc⟩ := hfin h
    refine ⟨?_, fun e2 => step_of_not_running _ e2 (by rw [h]; decide)⟩
    rw [step_advance s now sendto recv hrun, hpc]
    show _ = some (step_check_done s).stdout
    rw [step_check_done_eq, if_pos hc, finish_eq, finish_counts]
    rfl
  · intro hpc hc now sendto recv
    rw [step_advance s now sendto recv hrun, hpc]
    show step_check_done s = _
    rw [step_check_done_eq, if_neg hc]
  · exact ⟨rfl, by decide, by decide, by decide⟩

/-- C13 at the last event of the session with three replies: the statement at
the end of the third iteration finds `received = 3` and finishes. -/
theorem C13_witness :
    (run_events (run_start (example_ping56 3) ⟨100, 0⟩ 64)
      (events_three_replies.take 10)).status = .running ∧
    (step (run_events (run_start (example_ping56 3) ⟨100, 0⟩ 64) (events_three_replies.take 10))
        (.advance ⟨102, 25000⟩ 64 recv_timeout)).status = .finished ∧
    session_three_replies.status = .finished :=
  ⟨by decide,
    ((C13_run_finishes_when_limit_received
      (run_events (run_start (example_ping56 3) ⟨100, 0⟩ 64) (events_three_replies.take 10))
      (.advance ⟨102, 25000⟩ 64 recv_timeout) (by decide)).1.2
        ⟨⟨_, _, _, rfl⟩, by decide, by decide, by decide⟩),
    (C13_run_finishes_when_limit_received
      (run_events (run_start (example_ping56 3) ⟨100, 0⟩ 64) (events_three_replies.take 10))
      (.advance ⟨102, 25000⟩ 64 recv_timeout) (by decide)).2.2.2.2.1⟩


/-! ## C14, C15 -/

/-- C14 (as stated) fails: the first send of a session fails, so `transmitted`
stays 0, and an Echo Reply with the session identifier is then accepted, so
`received` becomes 1. -/
theorem C14_counterexample :
    (example_ping56 0).stats = {} ∧
    Reachable (example_ping56 0) session_reply_after_failed_send ∧
    session_reply_after_failed_send.ping.stats.transmitted = 0 ∧
    session_reply_after_failed_send.ping.stats.received = 1 ∧
    ¬ (session_reply_after_failed_send.ping.stats.received ≤
        session_reply_after_failed_send.ping.stats.transmitted) :=
  ⟨rfl, ⟨_, _, _, rfl⟩, by decide, by decide, by decide⟩

/-- C14 (amended): `received <= transmitted` holds initially and is preserved by
`send_ping` (succeeding or failing), by `alarm_handler`, and by `print_packet`
on every inbound buffer it does not accept; an accepted reply adds 1 to
`received` whatever `transmitted` is, so `print_packet` preserves the relation
on every buffer when `received < transmitted` held before. -/
theorem C14_received_le_transmitted_steps (p : Ping) (now : Timeval) (sendto : Int)
    (buf : List Byte) (cc : Int) (src : String)
    (h : p.stats.received ≤ p.stats.transmitted) :
    (({} : PingStatistics).received ≤ ({} : PingStatistics).transmitted) ∧
      (send_ping p now sendto).ping.stats.received ≤
        (send_ping p now sendto).ping.stats.transmitted ∧
      (alarm_handler p now sendto).ping.stats.received ≤
        (alarm_handler p now sendto).ping.stats.transmitted ∧
      (print_packet p buf cc src now).ping.stats.transmitted = p.stats.transmitted ∧
      ((print_packet p buf cc src now).ping.stats.received = p.stats.received ∨
        (print_packet p buf cc src now).ping.stats.received = p.stats.received + 1) ∧
      ((print_packet p buf cc src now).ping.stats.received = p.stats.received →
        (print_packet p buf cc src now).ping.stats.received ≤
          (print_packet p buf cc src now).ping.stats.transmitted) ∧
      (p.stats.received < p.stats.transmitted →
        (print_packet p buf cc src now).ping.stats.received ≤
          (print_packet p buf cc src now).ping.stats.transmitted) := by
  have hsend : (send_ping p now sendto).ping.stats.received ≤
      (send_ping p now sendto).ping.stats.transmitted := by
    rw [send_ping_ping]
    show p.stats.received ≤ if sendto ≤ 0 then p.stats.transmitted else p.stats.transmitted + 1
    split <;> omega
  have htx := (print_packet_config p buf cc src now).2.2
  have hrx : (print_packet p buf cc src now).ping.stats.received = p.stats.received ∨
      (print_packet p buf cc src now).ping.stats.received = p.stats.received + 1 := by
    rcases print_packet_cases p buf cc src now with e | ⟨_, e⟩ | ⟨_, e⟩ <;> rw [e]
    · exact Or.inl rfl
    · exact Or.inr rfl
    · exact Or.inr rfl
  refine ⟨by decide, hsend, ?_, htx, hrx, ?_, ?_⟩
  · rw [alarm_handler_eq]
    split
    · exact hsend
    · exact h
  · intro e
    rw [htx, e]
    exact h
  · intro hlt
    rw [htx]
    rcases hrx with e | e <;> rw [e] <;> omega

/-- C14 (amended) at a state with `received = 0` and `transmitted = 513`: an
accepted reply gives `received = 1`, still at most `transmitted`. -/
theorem C14_witness :
    example_session.stats.received ≤ example_session.stats.transmitted ∧
    (print_packet example_session example_reply 84 "127.0.0.1" ⟨5, 6⟩).ping.stats.received = 1 ∧
    (print_packet example_session example_reply 84 "127.0.0.1" ⟨5, 6⟩).ping.stats.received ≤
      (print_packet example_session example_reply 84 "127.0.0.1" ⟨5, 6⟩).ping.stats.transmitted :=
  ⟨by decide, by decide,
    (C14_received_le_transmitted_steps example_session ⟨5, 6⟩ 11 example_reply 84 "127.0.0.1"
      (by decide)).2.2.2.2.2.2 (by decide)⟩

/-- C15 (as stated) fails: with timing disabled an accepted reply only counts;
after one reply `received = 1`, `min_time` is still 99999999 and `total_time`
and `max_time` are 0, so the average 0 is below `min_time`. -/
theorem C15_counterexample :
    example_ping3.stats = {} ∧
    Reachable example_ping3 session_untimed_reply ∧
    session_untimed_reply.ping.stats =
      { transmitted := 1, received := 1, min_time := 99999999, max_time := 0,
        total_time := 0 } ∧
    session_untimed_reply.ping.stats.received > 0 ∧
    ¬ (session_untimed_reply.ping.stats.min_time ≤
        Int.tdiv session_untimed_reply.ping.stats.total_time
          session_untimed_reply.ping.stats.received) :=
  ⟨rfl, ⟨_, _, _, rfl⟩, by decide, by decide, by decide⟩

/-- C15 (amended): in every reachable state of a session with timing enabled
and `received > 0`, `min_time <= avg_time <= max_time`, where `avg_time` is
`total_time / received` with truncating division; the statistics start at
`min_time = 99999999`, `max_time = 0`, `total_time = 0` and are updated only by
the accepted replies in `print_packet`. -/
theorem C15_min_avg_max_with_timing (p0 : Ping) (s : Session) (h0 : p0.stats = {})
    (hr : Reachable p0 s) (ht : s.ping.timing = true) (hrx : s.ping.stats.received > 0) :
    s.ping.stats.min_time ≤ Int.tdiv s.ping.stats.total_time s.ping.stats.received ∧
      Int.tdiv s.ping.stats.total_time s.ping.stats.received ≤ s.ping.stats.max_time := by
  obtain ⟨_, _, _, hsum⟩ := reachable_StatsInv p0 h0 s hr
  obtain ⟨hlo, hhi⟩ := hsum ht
  exact tdiv_between _ _ _ _ hrx hlo hhi

/-- C15 (amended) at the end of the session with replies of 20, 30 and 25 ms:
the average 25 lies between 20 and 30. -/
theorem C15_witness :
    ((example_ping56 3).stats = {} ∧ Reachable (example_ping56 3) session_three_replies ∧
      session_three_replies.ping.timing = true ∧
      session_three_replies.ping.stats.received > 0) ∧
    Int.tdiv session_three_replies.ping.stats.total_time
      session_three_replies.ping.stats.received = 25 ∧
    (session_three_replies.ping.stats.min_time ≤
        Int.tdiv session_three_replies.ping.stats.total_time
          session_three_replies.ping.stats.received ∧
      Int.tdiv session_three_replies.ping.stats.total_time
          session_three_replies.ping.stats.received ≤
        session_three_replies.ping.stats.max_time) :=
  ⟨⟨rfl, ⟨_, _, _, rfl⟩, by decide, by decide⟩, by decide,
    C15_min_avg_max_with_timing (example_ping56 3) session_three_replies rfl ⟨_, _, _, rfl⟩
      (by decide) (by decide)⟩


/-! ## C16, C17 -/

theorem ctor_timing_of_nonneg (datalen : Int) (h0 : 0 ≤ datalen) (h1 : datalen < 2 ^ 31) :
    ctor_timing datalen = true ↔ 16 ≤ datalen := by
  unfold ctor_timing sizeof_timeval
  rw [decide_eq_true_iff]
  have e := toSizeT_nonneg datalen h0 (by omega)
  omega

/-- C16, the code at the failing input `datalen = -1`.  The payload length
passes the size check (`packsize = 7`), and the comparison
`datalen >= sizeof(timeval)`, made in `size_t`, is true: the constructor
enables timing although `datalen < 16`.  `send_ping` then stores the timestamp
at offsets 8..23 of the buffer, outside the 7 bytes handed to `sendto`.  For
every payload length from 0 on the flag is true exactly when `datalen >= 16`. -/
theorem C16_timing_enabled_for_negative_datalen :
    (packsize_too_large (ctor_packsize (-1)) = false ∧ ctor_packsize (-1) = 7 ∧
      ctor_timing (-1) = true ∧ ¬ ((16 : Int) ≤ -1)) ∧
    (ctor example_env "127.0.0.1" (-1) 0 false).result = .ok example_ping_neg ∧
    (example_ping_neg.timing = true ∧
      (send_ping example_ping_neg ⟨100, 250000⟩ 7).packet.length = 7 ∧
      load_timeval (send_ping example_ping_neg ⟨100, 250000⟩ 7).ping.send_packet 8 =
        ⟨100, 250000⟩) ∧
    (∀ datalen : Int, 0 ≤ datalen → datalen < 2 ^ 31 →
      (ctor_timing datalen = true ↔ 16 ≤ datalen)) :=
  ⟨by decide, rfl, by decide, ctor_timing_of_nonneg⟩

theorem getD_fill_pattern_ge : ∀ (count i : Nat) (mem : List Byte) (j : Nat) (d : Byte),
    i ≤ j → j < i + count → j < mem.length →
      (fill_pattern count i mem).getD j d = toByte (j &&& 0xFF)
  | 0, i, mem, j, d, h1, h2, _ => by omega
  | count + 1, i, mem, j, d, h1, h2, h3 => by
    rw [fill_pattern]
    by_cases hj : j = i
    · subst hj
      rw [getD_fill_pattern_lt _ _ _ _ _ (by omega), getD_set_eq _ _ _ _ h3]
    · exact getD_fill_pattern_ge count (i + 1) _ j d (by omega) (by omega)
        (by rw [List.length_set]; exact h3)

theorem getD_store16_gt (mem : List Byte) (off v j : Nat) (d : Byte) (h : off + 1 < j) :
    (store16 mem off v).getD j d = mem.getD j d := by
  simp only [store16]
  rw [getD_set_ne _ _ _ _ _ (by omega), getD_set_ne _ _ _ _ _ (by omega)]

/-- The bytes that the fill loop of `send_ping` writes: from index 24 up to the
packet size, whatever the timing flag is. -/
theorem send_ping_pattern_from_24 (p : Ping) (now : Timeval) (sendto : Int) (i : Nat)
    (hlen : p.send_packet.length = 4096) (hcap : p.packsize ≤ 4096)
    (h24 : 24 ≤ i) (hi : (i : Int) < p.packsize) :
    (send_ping p now sendto).packet.getD i 0 = toByte (i &&& 0xFF) := by
  have hfl := send_ping_filled_length p now
  rw [send_ping_packet, getD_take _ _ _ _ (by omega), getD_store16_gt _ _ _ _ _ (by omega)]
  unfold send_ping_filled
  simp only [sizeof_icmphdr, sizeof_timeval]
  apply getD_fill_pattern_ge
  · exact h24
  · omega
  · by_cases ht : p.timing = true
    · rw [if_pos ht, store_timeval_length, store16_length, store16_length, store16_length,
        List.length_set, List.length_set, hlen]
      omega
    · rw [if_neg ht, store16_length, store16_length, store16_length,
        List.length_set, List.length_set, hlen]
      omega

/-- C17, the code at the failing input: payload length 3 (timing disabled), send
buffer filled with the byte 7.  The fill loop starts at index 24 whatever the
timing flag is, so the payload bytes at indices 8, 9, 10 keep the old content 7
instead of 8, 9, 10.  From index 24 on every byte of the packet is `i & 0xFF`. -/
theorem C17_payload_not_filled_without_timing :
    (example_ping3.timing = false ∧ example_ping3.datalen = 3 ∧
      example_ping3.send_packet = List.replicate 4096 7) ∧
    (send_ping example_ping3 ⟨100, 0⟩ 11).packet =
      [8, 0, 215, 196, 18, 52, 0, 0, 7, 7, 7] ∧
    (send_ping example_ping3 ⟨100, 0⟩ 11).packet.getD 8 0 ≠ toByte (8 &&& 0xFF) ∧
    (∀ (p : Ping) (now : Timeval) (sendto : Int) (i : Nat),
      p.send_packet.length = 4096 → p.packsize ≤ 4096 → 24 ≤ i → (i : Int) < p.packsize →
        (send_ping p now sendto).packet.getD i 0 = toByte (i &&& 0xFF)) :=
  ⟨⟨rfl, rfl, rfl⟩, by decide, by decide, send_ping_pattern_from_24⟩


/-! ## C18, C19, C20 -/

theorem alarm_handler_send (p : Ping) (now : Timeval) (sendto : Int)
    (h : p.npackets = 0 ∨ p.stats.transmitted < p.npackets) :
    alarm_handler p now sendto =
      { ping := (send_ping p now sendto).ping, sent := some (send_ping p now sendto).packet,
        stderr := (send_ping p now sendto).stderr, exit_on_alarm := false, alarm := 1 } := by
  rw [alarm_handler_eq, if_pos h]

theorem alarm_handler_drain (p : Ping) (now : Timeval) (sendto : Int)
    (h : ¬ (p.npackets = 0 ∨ p.stats.transmitted < p.npackets)) :
    (alarm_handler p now sendto).ping = p ∧ (alarm_handler p now sendto).sent = none ∧
      (alarm_handler p now sendto).exit_on_alarm = true := by
  rw [alarm_handler_eq, if_neg h]
  exact ⟨rfl, rfl, rfl⟩

theorem send_ping_transmitted (p : Ping) (now : Timeval) (sendto : Int) :
    (send_ping p now sendto).ping.stats.transmitted =
      if sendto ≤ 0 then p.stats.transmitted else p.stats.transmitted + 1 := by
  rw [send_ping_ping]

/-- Once `alarm_handler` has replaced the SIGALRM handler, `alarm_flag` is never
set again. -/
theorem reachable_no_flag_when_draining (p0 : Ping) (s : Session) (hr : Reachable p0 s) :
    s.exit_on_alarm = true → s.alarm_flag = false := by
  refine reachable_induction p0 (fun s => s.exit_on_alarm = true → s.alarm_flag = false)
    ?_ ?_ s hr
  · intro now sendto h
    exact absurd h (by simp [run_start])
  · intro s e ih
    by_cases hst : s.status = .running
    · cases e with
      | sigint =>
        rw [step_sigint s hst]
        exact ih
      | sigalrm =>
        rw [step_sigalrm s hst]
        cases s.timer with
        | none => exact ih
        | some t =>
          show (if s.exit_on_alarm = true then _ else _ : Session).exit_on_alarm = true →
            (if s.exit_on_alarm = true then _ else _ : Session).alarm_flag = false
          split
          · exact ih
          · next hx => exact fun h => absurd h hx
      | advance now sendto recv =>
        rw [step_advance s now sendto recv hst]
        cases s.pc with
        | check_alarm =>
          show (step_check_alarm s now sendto).exit_on_alarm = true →
            (step_check_alarm s now sendto).alarm_flag = false
          unfold step_check_alarm
          split
          · exact fun _ => rfl
          · exact ih
        | receive => exact ih
        | check_done =>
          show (step_check_done s).exit_on_alarm = true → (step_check_done s).alarm_flag = false
          unfold step_check_done
          split
          · split <;> exact ih
          · exact ih
    · rw [step_of_not_running s e hst]
      exact ih

theorem step_sent_of_no_flag (s : Session) (e : Event) (h : s.alarm_flag = false) :
    (step s e).sent = s.sent := by
  rcases step_ping_cases s e with h1 | ⟨now, sendto, _, _, hf, _⟩ | ⟨recv, now, _, _, h3⟩
  · exact h1.2
  · rw [h] at hf
    exact absurd hf (by decide)
  · rw [h3]
    rfl

/-- C18: for every session with a packet-count limit `npackets = n >= 1`,
`transmitted <= n` holds in every reachable state.  The first send is
unconditional; `alarm_handler` sends another request only while
`transmitted < n`, and otherwise sends nothing and replaces the SIGALRM handler,
after which no event adds a send; with `npackets = 0` every call of
`alarm_handler` sends. -/
theorem C18_transmitted_le_limit (p0 : Ping) (s : Session) (n : Int) (h0 : p0.stats = {})
    (hn : p0.npackets = n) (h1 : 1 ≤ n) (hr : Reachable p0 s) :
    s.ping.stats.transmitted ≤ n ∧
      (∀ now sendto, (run_start p0 now sendto).sent.length = 1) ∧
      (∀ (p : Ping) now sendto, p.npackets = n → p.stats.transmitted < n →
        (alarm_handler p now sendto).ping = (send_ping p now sendto).ping ∧
          (alarm_handler p now sendto).sent = some (send_ping p now sendto).packet ∧
          (alarm_handler p now sendto).alarm = 1) ∧
      (∀ (p : Ping) now sendto, p.npackets = n → ¬ p.stats.transmitted < n →
        (alarm_handler p now sendto).ping = p ∧ (alarm_handler p now sendto).sent = none ∧
          (alarm_handler p now sendto).exit_on_alarm = true) ∧
      (s.exit_on_alarm = true → ∀ e, (step s e).sent = s.sent) ∧
      (∀ (p : Ping) now sendto, p.npackets = 0 →
        (alarm_handler p now sendto).ping = (send_ping p now sendto).ping ∧
          (alarm_handler p now sendto).sent = some (send_ping p now sendto).packet ∧
          (alarm_handler p now sendto).alarm = 1) := by
  have hinv : s.ping.npackets = n ∧ s.ping.stats.transmitted ≤ n := by
    refine reachable_ping_induction p0
      (fun p => p.npackets = n ∧ p.stats.transmitted ≤ n) ?_ ?_ ?_ s hr
    · intro now sendto
      refine ⟨(send_ping_config p0 now sendto).2.1.trans hn, ?_⟩
      rw [send_ping_transmitted, h0]
      show (if sendto ≤ 0 then (0 : Int) else 0 + 1) ≤ n
      split <;> omega
    · intro p now sendto ⟨hpn, hle⟩
      refine ⟨(alarm_handler_config p now sendto).2.1.trans hpn, ?_⟩
      by_cases hc : p.npackets = 0 ∨ p.stats.transmitted < p.npackets
      · rw [alarm_handler_send p now sendto hc]
        show (send_ping p now sendto).ping.stats.transmitted ≤ n
        rw [send_ping_transmitted]
        have hlt : p.stats.transmitted < n := by
          rcases hc with hc | hc <;> omega
        split <;> omega
      · rw [(alarm_handler_drain p now sendto hc).1]
        exact hle
    · intro p recv now ⟨hpn, hle⟩
      obtain ⟨hcfg, _, htx⟩ := receive_ping_config p recv now
      exact ⟨hcfg.2.1.trans hpn, by rw [htx]; exact hle⟩
  refine ⟨hinv.2, fun _ _ => rfl, ?_, ?_, ?_, ?_⟩
  · intro p now sendto hpn hlt
    rw [alarm_handler_send p now sendto (Or.inr (by omega))]
    exact ⟨rfl, rfl, rfl⟩
  · intro p now sendto hpn hge
    exact alarm_handler_drain p now sendto (by omega)
  · intro hx e
    exact step_sent_of_no_flag s e (reachable_no_flag_when_draining p0 s hr hx)
  · intro p now sendto hp0
    rw [alarm_handler_send p now sendto (Or.inl hp0)]
    exact ⟨rfl, rfl, rfl⟩

/-- C18 at the session with limit 2 and no reply, in its grace period:
`transmitted = 2`. -/
theorem C18_witness :
    ((example_ping56 2).stats = {} ∧ (example_ping56 2).npackets = 2 ∧ (1 : Int) ≤ 2 ∧
      Reachable (example_ping56 2) session_no_reply_draining) ∧
    session_no_reply_draining.ping.stats.transmitted = 2 ∧
    session_no_reply_draining.ping.stats.transmitted ≤ 2 :=
  ⟨⟨rfl, rfl, by decide, ⟨_, _, _, rfl⟩⟩, by decide,
    (C18_transmitted_le_limit (example_ping56 2) session_no_reply_draining 2 rfl rfl
      (by decide) ⟨_, _, _, rfl⟩).1⟩

/-- C20: when `alarm_handler` enters draining (the limit is reached for
transmission), the grace duration it arms is 10 seconds if `received = 0` and
otherwise max(1, 2 * max_time / 1000) seconds, for every `max_time >= 0`; it is
always at least 1 second. -/
theorem C20_grace_duration (p : Ping) (now : Timeval) (sendto : Int)
    (hlimit : ¬ (p.npackets = 0 ∨ p.stats.transmitted < p.npackets))
    (hmax : 0 ≤ p.stats.max_time) :
    (alarm_handler p now sendto).alarm =
        (if p.stats.received = 0 then 10 else max 1 (Int.tdiv (2 * p.stats.max_time) 1000)) ∧
      Int.tdiv (2 * p.stats.max_time) 1000 = 2 * p.stats.max_time / 1000 ∧
      1 ≤ (alarm_handler p now sendto).alarm ∧
      (alarm_handler p now sendto).exit_on_alarm = true ∧
      (alarm_handler p now sendto).sent = none := by
  have hdiv : Int.tdiv (2 * p.stats.max_time) 1000 = 2 * p.stats.max_time / 1000 :=
    Int.tdiv_eq_ediv (by omega) (by norm_num)
  have hq : 0 ≤ 2 * p.stats.max_time / 1000 := by omega
  rw [alarm_handler_eq, if_neg hlimit, hdiv]
  refine ⟨?_, rfl, ?_, rfl, rfl⟩
  · show (if (if p.stats.received ≠ 0 then 2 * p.stats.max_time / 1000 else 10) = 0 then 1
      else (if p.stats.received ≠ 0 then 2 * p.stats.max_time / 1000 else 10)) = _
    by_cases hr : p.stats.received = 0
    · simp [hr]
    · simp only [ne_eq, hr, not_false_eq_true, if_true, if_false, max_def]
      split <;> split <;> omega
  · show 1 ≤ (if (if p.stats.received ≠ 0 then 2 * p.stats.max_time / 1000 else 10) = 0 then 1
      else (if p.stats.received ≠ 0 then 2 * p.stats.max_time / 1000 else 10))
    split <;> split <;> omega

/-- C20 at a state with the limit 3 reached, 3 replies and `max_time = 30`: the
grace duration is max(1, 60 / 1000) = 1 second. -/
theorem C20_witness :
    (¬ (session_three_replies.ping.npackets = 0 ∨
        session_three_replies.ping.stats.transmitted < session_three_replies.ping.npackets) ∧
      0 ≤ session_three_replies.ping.stats.max_time) ∧
    (alarm_handler session_three_replies.ping ⟨103, 0⟩ 64).alarm = 1 ∧
    1 ≤ (alarm_handler session_three_replies.ping ⟨103, 0⟩ 64).alarm :=
  ⟨by decide, by decide,
    (C20_grace_duration session_three_replies.ping ⟨103, 0⟩ 64 (by decide) (by decide)).2.2.1⟩


theorem getD_store16_lo (mem : List Byte) (off v : Nat) (d : Byte) (h : off + 1 < mem.length) :
    (store16 mem off v).getD off d = toByte v := by
  simp only [store16]
  rw [getD_set_ne _ _ _ _ _ (by omega), getD_set_eq _ _ _ _ (by omega)]

theorem getD_store16_hi (mem : List Byte) (off v : Nat) (d : Byte) (h : off + 1 < mem.length) :
    (store16 mem off v).getD (off + 1) d = toByte (v / 256) := by
  simp only [store16]
  rw [getD_set_eq _ _ _ _ (by rw [List.length_set]; exact h)]

/-- A 16-bit value stored with `htons` reads back big-endian. -/
theorem be16_store16_htons (mem : List Byte) (off x : Nat) (h : off + 1 < mem.length)
    (hx : x < 65536) : be16 (store16 mem off (htons x)) off = x := by
  unfold be16
  rw [getD_store16_lo _ _ _ _ h, getD_store16_hi _ _ _ _ h]
  have h1 : (x % 256 * 256 + x / 256 % 256) / 256 = x % 256 := by omega
  have h2 : (x % 256 * 256 + x / 256 % 256) % 256 = x / 256 % 256 := by omega
  simp only [toByte, htons, h1, h2]
  omega

theorem toU16_lt (x : Int) : toU16 x < 65536 := by
  unfold toU16
  omega

theorem be16_congr (a b : List Byte) (off : Nat) (h0 : a.getD off 0 = b.getD off 0)
    (h1 : a.getD (off + 1) 0 = b.getD (off + 1) 0) : be16 a off = be16 b off := by
  unfold be16
  rw [h0, h1]

/-- The identifier and sequence fields of the request that `send_ping` builds. -/
theorem send_ping_fields (p : Ping) (now : Timeval) (sendto : Int)
    (hlen : 8 ≤ p.send_packet.length) :
    be16 (send_ping p now sendto).ping.send_packet 4 = toU16 p.ident ∧
      be16 (send_ping p now sendto).ping.send_packet 6 = toU16 p.stats.transmitted := by
  have key : ∀ j, 4 ≤ j → j < 8 → (send_ping p now sendto).ping.send_packet.getD j 0 =
      (store16 (store16 (store16 ((p.send_packet.set 0 (toByte ICMP_ECHO)).set 1 0) 2 0) 4
        (htons (toU16 p.ident))) 6 (htons (toU16 p.stats.transmitted))).getD j 0 := by
    intro j h4 h8
    rw [send_ping_ping]
    show (store16 (send_ping_filled p now) 2 _).getD j 0 = _
    rw [getD_store16_gt _ _ _ _ _ (by omega)]
    unfold send_ping_filled
    simp only [sizeof_icmphdr, sizeof_timeval]
    rw [getD_fill_pattern_lt _ _ _ _ _ (by omega)]
    by_cases ht : p.timing = true
    · rw [if_pos ht, getD_store_timeval_lt _ _ _ _ _ (by omega)]
    · rw [if_neg ht]
  have hl : ((p.send_packet.set 0 (toByte ICMP_ECHO)).set 1 0).length = p.send_packet.length := by
    rw [List.length_set, List.length_set]
  constructor
  · rw [be16_congr _ _ 4 (key 4 (by omega) (by omega)) (key 5 (by omega) (by omega))]
    rw [be16_congr _ (store16 (store16 ((p.send_packet.set 0 (toByte ICMP_ECHO)).set 1 0) 2 0) 4
        (htons (toU16 p.ident))) 4
      (getD_store16_lt _ _ _ _ _ (by omega)) (getD_store16_lt _ _ _ _ _ (by omega))]
    exact be16_store16_htons _ 4 _ (by rw [store16_length, hl]; omega) (toU16_lt _)
  · rw [be16_congr _ _ 6 (key 6 (by omega) (by omega)) (key 7 (by omega) (by omega))]
    exact be16_store16_htons _ 6 _ (by rw [store16_length, store16_length, hl]; omega)
      (toU16_lt _)


theorem send_ping_packet_eq_take (p : Ping) (now : Timeval) (sendto : Int) :
    (send_ping p now sendto).packet =
      (send_ping p now sendto).ping.send_packet.take p.packsize.toNat := by
  rw [send_ping_packet, send_ping_ping]

/-- The successful sequence numbers after one more call of `sendto`. -/
theorem sequences_append (log : List SentRequest) (x : SentRequest) (n : Nat)
    (h : (log.filter (fun r => r.ok)).map (fun r => be16 r.buffer 6) =
      (List.range n).map (fun k => k % 65536))
    (hx : be16 x.buffer 6 = n % 65536) :
    ((log ++ [x]).filter (fun r => r.ok)).map (fun r => be16 r.buffer 6) =
      (List.range (if x.ok then n + 1 else n)).map (fun k => k % 65536) := by
  rw [List.filter_append, List.map_append, h]
  by_cases hok : x.ok = true
  · rw [if_pos hok, List.range_succ, List.map_append]
    simp [List.filter, hok, hx]
  · rw [if_neg hok]
    simp [List.filter, hok]

/-- The invariant of the list of sends: `transmitted` counts the successful
sends, and the k-th of them carries the sequence number k mod 65536. -/
theorem reachable_sequences (p0 : Ping) (s : Session) (h0 : p0.stats = {})
    (hlen : 8 ≤ p0.send_packet.length) (hr : Reachable p0 s) :
    0 ≤ s.ping.stats.transmitted ∧ 8 ≤ s.ping.send_packet.length ∧
      sent_sequences s =
        (List.range s.ping.stats.transmitted.toNat).map (fun k => k % 65536) := by
  have hsend : ∀ (p : Ping) (log : List SentRequest) now sendto,
      0 ≤ p.stats.transmitted → 8 ≤ p.send_packet.length →
      (log.filter (fun r => r.ok)).map (fun r => be16 r.buffer 6) =
        (List.range p.stats.transmitted.toNat).map (fun k => k % 65536) →
      0 ≤ (send_ping p now sendto).ping.stats.transmitted ∧
        8 ≤ (send_ping p now sendto).ping.send_packet.length ∧
        ((log ++ [({ buffer := (send_ping p now sendto).ping.send_packet,
                     packsize := p.packsize, ok := decide (0 < sendto) } : SentRequest)]).filter
            (fun r => r.ok)).map (fun r => be16 r.buffer 6) =
          (List.range (send_ping p now sendto).ping.stats.transmitted.toNat).map
            (fun k => k % 65536) := by
    intro p log now sendto htx hl hseq
    have hf := (send_ping_fields p now sendto hl).2
    have hu : toU16 p.stats.transmitted = p.stats.transmitted.toNat % 65536 := by
      unfold toU16
      omega
    refine ⟨?_, ?_, ?_⟩
    · rw [send_ping_transmitted]
      split <;> omega
    · rw [(send_ping_config p now sendto).2.2.2.2]
      exact hl
    · rw [sequences_append log _ _ hseq (by rw [hf, hu]), send_ping_transmitted]
      by_cases hs : sendto ≤ 0
      · have hd : decide (0 < sendto) = false := by simp [hs]
        simp only [hd, if_pos hs]
        rfl
      · have hd : decide (0 < sendto) = true := by simp; omega
        simp only [hd, if_neg hs, if_true]
        congr 2
        omega
  refine reachable_induction p0
    (fun s => 0 ≤ s.ping.stats.transmitted ∧ 8 ≤ s.ping.send_packet.length ∧
      sent_sequences s =
        (List.range s.ping.stats.transmitted.toNat).map (fun k => k % 65536)) ?_ ?_ s hr
  · intro now sendto
    have := hsend p0 [] now sendto (by rw [h0]) hlen (by rw [h0]; rfl)
    exact this
  · intro s e ⟨htx, hl, hseq⟩
    rcases step_ping_cases s e with h1 | ⟨now, sendto, _, _, hf, h2⟩ | ⟨recv, now, _, _, h3⟩
    · unfold sent_sequences at hseq ⊢
      rw [h1.1, h1.2]
      exact ⟨htx, hl, hseq⟩
    · rw [h2]
      by_cases hc : s.ping.npackets = 0 ∨ s.ping.stats.transmitted < s.ping.npackets
      · have e1 : (step_check_alarm s now sendto).ping = (send_ping s.ping now sendto).ping := by
          rw [step_check_alarm_ping s now sendto hf, alarm_handler_send _ _ _ hc]
        have e2 : (step_check_alarm s now sendto).sent =
            s.sent ++ [{ buffer := (send_ping s.ping now sendto).ping.send_packet,
                         packsize := s.ping.packsize, ok := decide (0 < sendto) }] := by
          unfold step_check_alarm
          rw [if_pos hf, alarm_handler_send _ _ _ hc]
        unfold sent_sequences
        rw [e1, e2]
        exact hsend s.ping s.sent now sendto htx hl hseq
      · have e1 : (step_check_alarm s now sendto).ping = s.ping := by
          rw [step_check_alarm_ping s now sendto hf, (alarm_handler_drain _ _ _ hc).1]
        have e2 : (step_check_alarm s now sendto).sent = s.sent := by
          unfold step_check_alarm
          rw [if_pos hf]
          show (match (alarm_handler s.ping now sendto).sent with
            | some _ => _
            | none => s.sent) = s.sent
          rw [(alarm_handler_drain _ _ _ hc).2.1]
        unfold sent_sequences at hseq ⊢
        rw [e1, e2]
        exact ⟨htx, hl, hseq⟩
    · obtain ⟨_, hsp, htr⟩ := receive_ping_config s.ping recv now
      have e1 : (step s e).ping = (receive_ping s.ping recv now).ping := by rw [h3]; rfl
      have e2 : (step s e).sent = s.sent := by rw [h3]; rfl
      unfold sent_sequences at hseq ⊢
      rw [e1, e2, htr, hsp]
      exact ⟨htx, hl, hseq⟩

/-- C19: each request built by `send_ping` carries, big-endian in bytes 6-7,
the low 16 bits of the transmitted count at build time and, big-endian in bytes
4-5, the session identifier (both in the send buffer and, when the packet has
its 8 header bytes, in the packet handed to `sendto`); `transmitted` increases
by exactly 1 when the send succeeds and is unchanged when it fails; so in every
reachable state of a session `transmitted` is the number of successful sends and
the k-th successfully sent request (k = 0, 1, 2, ...) carries sequence
k mod 65536. -/
theorem C19_request_sequence_numbers (p0 : Ping) (s : Session) (h0 : p0.stats = {})
    (hlen : 8 ≤ p0.send_packet.length) (hr : Reachable p0 s) :
    (∀ (p : Ping) (now : Timeval) (sendto : Int), 8 ≤ p.send_packet.length →
      (be16 (send_ping p now sendto).ping.send_packet 6 : Int) = p.stats.transmitted % 65536 ∧
        (be16 (send_ping p now sendto).ping.send_packet 4 : Int) = p.ident % 65536 ∧
        (0 ≤ p.ident → p.ident < 65536 →
          (be16 (send_ping p now sendto).ping.send_packet 4 : Int) = p.ident) ∧
        (8 ≤ p.packsize →
          be16 (send_ping p now sendto).packet 6 =
              be16 (send_ping p now sendto).ping.send_packet 6 ∧
            be16 (send_ping p now sendto).packet 4 =
              be16 (send_ping p now sendto).ping.send_packet 4) ∧
        (0 < sendto →
          (send_ping p now sendto).ping.stats.transmitted = p.stats.transmitted + 1) ∧
        (sendto ≤ 0 →
          (send_ping p now sendto).ping.stats.transmitted = p.stats.transmitted)) ∧
      ((sent_sequences s).length : Int) = s.ping.stats.transmitted ∧
      (∀ k : Nat, (k : Int) < s.ping.stats.transmitted →
        (sent_sequences s)[k]? = some (k % 65536)) := by
  obtain ⟨htx, _, hseq⟩ := reachable_sequences p0 s h0 hlen hr
  refine ⟨?_, ?_, ?_⟩
  · intro p now sendto hl
    obtain ⟨f4, f6⟩ := send_ping_fields p now sendto hl
    refine ⟨?_, ?_, ?_, ?_, ?_, ?_⟩
    · rw [f6]
      unfold toU16
      omega
    · rw [f4]
      unfold toU16
      omega
    · intro hi0 hi1
      rw [f4]
      unfold toU16
      omega
    · intro hp
      rw [send_ping_packet_eq_take]
      constructor <;> apply be16_congr <;> rw [getD_take _ _ _ _ (by omega)]
    · intro hs
      rw [send_ping_transmitted, if_neg (by omega)]
    · intro hs
      rw [send_ping_transmitted, if_pos hs]
  · rw [hseq, List.length_map, List.length_range]
    omega
  · intro k hk
    rw [hseq, List.getElem?_map, List.getElem?_range (by omega)]
    rfl

/-- C19 at the end of the session with three successful sends: the requests
carry the sequence numbers 0, 1, 2. -/
theorem C19_witness :
    ((example_ping56 3).stats = {} ∧ 8 ≤ (example_ping56 3).send_packet.length ∧
      Reachable (example_ping56 3) session_three_replies) ∧
    sent_sequences session_three_replies = [0, 1, 2] ∧
    ((sent_sequences session_three_replies).length : Int) =
      session_three_replies.ping.stats.transmitted :=
  ⟨⟨rfl, by rw [example_ping56, List.length_replicate]; decide, ⟨_, _, _, rfl⟩⟩, by decide,
    (C19_request_sequence_numbers (example_ping56 3) session_three_replies rfl
      (by rw [example_ping56, List.length_replicate]; decide) ⟨_, _, _, rfl⟩).2.1⟩


end Ping
